import Mathlib

/-!
Verification development for a small AVI player (`avi_player.cpp` / `avi_player.h` /
`main.cpp`).  The byte source (`std::ifstream`) is modelled as a list of bytes
together with a cursor position and a fail flag; every parsing routine of the
player (`parseAVIChunks`, `parseHeaderList`, `parseStreamList`, `indexFrames`,
`loadAVI`, `renderFrame` and the four pixel converters) is embedded as an
executable Lean function over that model.  Loops are written with an explicit
fuel argument; the wrappers pass `data.length + 1` fuel, which is always enough
because every loop iteration first reads an 8-byte chunk header and therefore
consumes at least 8 bytes of the source.
-/

namespace AviPlayer

set_option maxRecDepth 16000

/-! ## Byte-level primitives -/

/-- A byte of the source: the C++ code reads `uint8_t` values, so every access
goes through a reduction modulo 256. -/
def byteAt (bs : List Nat) (i : Nat) : Nat := bs.getD i 0 % 256

/-- Little-endian 32-bit read, as the C++ code obtains `uint32_t` fields from
the on-disk little-endian layout. -/
def u32at (bs : List Nat) (i : Nat) : Nat :=
  byteAt bs i + 256 * byteAt bs (i + 1) + 65536 * byteAt bs (i + 2) +
    16777216 * byteAt bs (i + 3)

/-- Little-endian 16-bit read (`uint16_t` fields such as `bitCount`). -/
def u16at (bs : List Nat) (i : Nat) : Nat := byteAt bs i + 256 * byteAt bs (i + 1)

/-- Little-endian signed 32-bit read (`int32_t` fields such as the bitmap
height). -/
def i32at (bs : List Nat) (i : Nat) : Int :=
  let v := u32at bs i
  if v < 2147483648 then (v : Int) else (v : Int) - 4294967296

/-- Little-endian serialization of a 32-bit value. -/
def u32le (n : Nat) : List Nat :=
  [n % 256, n / 256 % 256, n / 65536 % 256, n / 16777216 % 256]

/-- Little-endian serialization of a 16-bit value. -/
def u16le (n : Nat) : List Nat := [n % 256, n / 256 % 256]

/-- Little-endian serialization of a signed 32-bit value (two's complement). -/
def i32le (n : Int) : List Nat := u32le (n % 4294967296).toNat

/-- 32-bit wrap-around subtraction, as C++ computes `chunk.size - 4` on
`uint32_t`. -/
def u32sub (a b : Nat) : Nat :=
  (a % 4294967296 + (4294967296 - b % 4294967296)) % 4294967296

/-- AVI chunk payloads are padded to an even number of bytes; `indexFrames`
skips `size + 1` bytes for an odd declared size. -/
def paddedSize (n : Nat) : Nat := if n % 2 = 1 then n + 1 else n

/-! ## Four-character codes used by the player (ASCII byte values) -/

def tagRIFF : List Nat := [82, 73, 70, 70]
def tagAVIsp : List Nat := [65, 86, 73, 32]
def tagLIST : List Nat := [76, 73, 83, 84]
def tagHdrl : List Nat := [104, 100, 114, 108]
def tagMovi : List Nat := [109, 111, 118, 105]
def tagAvih : List Nat := [97, 118, 105, 104]
def tagStrl : List Nat := [115, 116, 114, 108]
def tagStrh : List Nat := [115, 116, 114, 104]
def tagStrf : List Nat := [115, 116, 114, 102]
def tagVids : List Nat := [118, 105, 100, 115]
def tag00db : List Nat := [48, 48, 100, 98]
def tag00dc : List Nat := [48, 48, 100, 99]
def tag00wb : List Nat := [48, 48, 119, 98]
def tagJUNK : List Nat := [74, 85, 78, 75]

/-! ## Header records (the fields of the C++ structs that the player reads) -/

/-- The fields of `AVIMainHeader` that the player uses: `microSecPerFrame`
(offset 0), `totalFrames` (offset 16), `width` (offset 32), `height`
(offset 36).  `sizeof(AVIMainHeader) = 56`. -/
structure AVIMainHeader where
  microSecPerFrame : Nat
  totalFrames : Nat
  width : Nat
  height : Nat
deriving DecidableEq, Repr

/-- Deserialize an `avih` payload (the 56 bytes read by `file.read`). -/
def parseMainHeader (bs : List Nat) : AVIMainHeader :=
  { microSecPerFrame := u32at bs 0
    totalFrames := u32at bs 16
    width := u32at bs 32
    height := u32at bs 36 }

/-- The fields of `BitmapInfoHeader` that the player uses: `width` (offset 4),
`height` (offset 8, signed), `bitCount` (offset 14, 16-bit), `compression`
(offset 16).  `sizeof(BitmapInfoHeader) = 40`. -/
structure BitmapInfoHeader where
  width : Int
  height : Int
  bitCount : Nat
  compression : Nat
deriving DecidableEq, Repr

/-- Deserialize a video `strf` payload prefix (the 40 bytes read by
`file.read`). -/
def parseBitmapHeader (bs : List Nat) : BitmapInfoHeader :=
  { width := i32at bs 4
    height := i32at bs 8
    bitCount := u16at bs 14
    compression := u32at bs 16 }

/-- `RGBQuad` palette entry: stored on disk as blue, green, red, reserved. -/
structure RGBQuad where
  blue : Nat
  green : Nat
  red : Nat
  reserved : Nat
deriving DecidableEq, Repr

/-- Deserialize `entries` palette quads from the palette bytes. -/
def parsePalette (bs : List Nat) (entries : Nat) : List RGBQuad :=
  (List.range entries).map fun i =>
    { blue := byteAt bs (4 * i)
      green := byteAt bs (4 * i + 1)
      red := byteAt bs (4 * i + 2)
      reserved := byteAt bs (4 * i + 3) }

/-! ## The byte source (`std::ifstream`) -/

/-- Stream cursor: position plus a fail flag.  After a failed read all further
reads fail and seeks are no-ops, mirroring `failbit` semantics; `tellg` on a
failed stream returns -1, which compares below every loop bound, and the read
that follows fails, so loops exit either way. -/
structure Strm where
  pos : Nat
  failed : Bool
deriving DecidableEq, Repr

/-- `file.read(buf, n)`: succeeds exactly when `n` bytes are available.  A
short read sets the fail flag; the partially filled buffer is modelled as
leaving the destination unchanged (the C++ contents are indeterminate there,
and no claim depends on that corner). -/
def srd (d : List Nat) (s : Strm) (n : Nat) : Option (List Nat) × Strm :=
  if s.failed then (none, s)
  else if s.pos + n ≤ d.length then
    (some ((d.drop s.pos).take n), { pos := s.pos + n, failed := false })
  else (none, { pos := d.length, failed := true })

/-- `file.seekg(off, std::ios::cur)` with a non-negative offset: seeking past
end-of-file succeeds for a file stream, so only the position moves; on a
failed stream the seek is a no-op. -/
def sseek (s : Strm) (off : Nat) : Strm :=
  if s.failed then s else { s with pos := s.pos + off }

/-! ## Parser state (the mutable members of `AVIPlayer` filled during load) -/

structure PSt where
  mainHeader : AVIMainHeader
  fccType : List Nat
  bitmapHeader : BitmapInfoHeader
  palette : List RGBQuad
  frameOffsets : List Nat
  frameSizes : List Nat
deriving DecidableEq, Repr

/-- The members start out zero-initialized in the model (the C++ POD members
are indeterminate before first assignment; no claim depends on pre-assignment
values, and a zero `fccType` never equals `vids`). -/
def initialState : PSt :=
  { mainHeader := ⟨0, 0, 0, 0⟩
    fccType := [0, 0, 0, 0]
    bitmapHeader := ⟨0, 0, 0, 0⟩
    palette := []
    frameOffsets := []
    frameSizes := [] }

/-! ## `indexFrames` -/

/-- Loop body of `AVIPlayer::indexFrames`: while `tellg() < movieStart +
movieSize` and an 8-byte chunk header can be read, record `00dc`/`00db`
chunks (data offset = `tellg()` after the header read, size = declared size)
and skip the declared size rounded up to an even number. -/
def indexLoop (d : List Nat) : Nat → Strm → Nat → PSt → Strm × PSt
  | 0, s, _, st => (s, st)
  | fuel + 1, s, bound, st =>
    if s.pos < bound ∨ s.failed = true then
      match srd d s 8 with
      | (none, s1) => (s1, st)
      | (some hdr, s1) =>
        let size := u32at hdr 4
        let st' :=
          if hdr.take 4 = tag00dc ∨ hdr.take 4 = tag00db then
            { st with frameOffsets := st.frameOffsets ++ [s1.pos]
                      frameSizes := st.frameSizes ++ [size] }
          else st
        indexLoop d fuel (sseek s1 (paddedSize size)) bound st'
    else (s, st)

/-- `AVIPlayer::indexFrames(movieSize)`: `movieStart = file.tellg()`. -/
def indexFrames (d : List Nat) (s : Strm) (movieSize : Nat) (st : PSt) : Strm × PSt :=
  indexLoop d (d.length + 1) s (s.pos + movieSize) st

/-! ## `parseStreamList` -/

/-- Loop body of `AVIPlayer::parseStreamList`: reads `strh` into the stream
header (only `fccType` is ever used), reads `strf` into the bitmap header when
the last stream header was of type `vids` (plus an optional palette for 8-bit
formats), and skips everything else by exactly the declared size. -/
def streamLoop (d : List Nat) : Nat → Strm → Nat → Nat → PSt → Strm × PSt
  | 0, s, _, _, st => (s, st)
  | fuel + 1, s, size, bytesRead, st =>
    if bytesRead < size then
      match srd d s 8 with
      | (none, s1) => (s1, st)
      | (some hdr, s1) =>
        let br1 := (bytesRead + 8) % 4294967296
        let csize := u32at hdr 4
        let br2 := (br1 + csize) % 4294967296
        if hdr.take 4 = tagStrh then
          match srd d s1 56 with
          | (some body, s2) => streamLoop d fuel s2 size br2 { st with fccType := body.take 4 }
          | (none, s2) => streamLoop d fuel s2 size br2 st
        else if hdr.take 4 = tagStrf then
          if st.fccType = tagVids then
            match srd d s1 40 with
            | (some body, s2) =>
              let bmp := parseBitmapHeader body
              let remaining := u32sub csize 40
              if remaining > 0 ∧ bmp.bitCount = 8 then
                let entries := remaining / 4
                match srd d s2 remaining with
                | (some pb, s3) =>
                  streamLoop d fuel s3 size br2
                    { st with bitmapHeader := bmp, palette := parsePalette pb entries }
                | (none, s3) =>
                  streamLoop d fuel s3 size br2
                    { st with bitmapHeader := bmp, palette := parsePalette [] entries }
              else if remaining > 0 then
                streamLoop d fuel (sseek s2 remaining) size br2 { st with bitmapHeader := bmp }
              else
                streamLoop d fuel s2 size br2 { st with bitmapHeader := bmp }
            | (none, s2) => streamLoop d fuel s2 size br2 st
          else streamLoop d fuel (sseek s1 csize) size br2 st
        else streamLoop d fuel (sseek s1 csize) size br2 st
    else (s, st)

/-- `AVIPlayer::parseStreamList(size)`. -/
def parseStreamList (d : List Nat) (s : Strm) (size : Nat) (st : PSt) : Strm × PSt :=
  streamLoop d (d.length + 1) s size 0 st

/-! ## `parseHeaderList` -/

/-- Loop body of `AVIPlayer::parseHeaderList`: reads `avih` into the main
header, recurses into `LIST strl` via `parseStreamList`, and skips everything
else by exactly the declared size (no even-byte rounding here). -/
def headerLoop (d : List Nat) : Nat → Strm → Nat → Nat → PSt → Strm × PSt
  | 0, s, _, _, st => (s, st)
  | fuel + 1, s, size, bytesRead, st =>
    if bytesRead < size then
      match srd d s 8 with
      | (none, s1) => (s1, st)
      | (some hdr, s1) =>
        let br1 := (bytesRead + 8) % 4294967296
        let csize := u32at hdr 4
        if hdr.take 4 = tagAvih then
          match srd d s1 56 with
          | (some body, s2) =>
            headerLoop d fuel s2 size ((br1 + csize) % 4294967296)
              { st with mainHeader := parseMainHeader body }
          | (none, s2) => headerLoop d fuel s2 size ((br1 + csize) % 4294967296) st
        else if hdr.take 4 = tagLIST then
          match srd d s1 4 with
          | (none, s2) => (s2, st)
          | (some lt, s2) =>
            let br2 := (br1 + 4) % 4294967296
            if lt = tagStrl then
              let r := parseStreamList d s2 (u32sub csize 4) st
              headerLoop d fuel r.1 size ((br2 + csize) % 4294967296) r.2
            else
              headerLoop d fuel (sseek s2 (u32sub csize 4)) size ((br2 + csize) % 4294967296) st
        else headerLoop d fuel (sseek s1 csize) size ((br1 + csize) % 4294967296) st
    else (s, st)

/-- `AVIPlayer::parseHeaderList(size)`. -/
def parseHeaderList (d : List Nat) (s : Strm) (size : Nat) (st : PSt) : Strm × PSt :=
  headerLoop d (d.length + 1) s size 0 st

/-! ## `parseAVIChunks` -/

/-- Loop body of `AVIPlayer::parseAVIChunks`: walks top-level chunks, enters
`LIST hdrl` (setting `foundMainHeader`), breaks after indexing `LIST movi`,
and skips everything else by exactly the declared size. -/
def chunkLoop (d : List Nat) : Nat → Strm → Bool → PSt → Bool × Strm × PSt
  | 0, s, found, st => (found, s, st)
  | fuel + 1, s, found, st =>
    match srd d s 8 with
    | (none, s1) => (found, s1, st)
    | (some hdr, s1) =>
      let csize := u32at hdr 4
      if hdr.take 4 = tagLIST then
        match srd d s1 4 with
        | (none, s2) => (found, s2, st)
        | (some lt, s2) =>
          if lt = tagHdrl then
            let r := parseHeaderList d s2 (u32sub csize 4) st
            chunkLoop d fuel r.1 true r.2
          else if lt = tagMovi then
            let r := indexFrames d s2 (u32sub csize 4) st
            (found, r.1, r.2)
          else chunkLoop d fuel (sseek s2 (u32sub csize 4)) found st
      else chunkLoop d fuel (sseek s1 csize) found st

/-- `AVIPlayer::parseAVIChunks`: returns
`foundMainHeader && !frameOffsets.empty()` together with the final stream and
state. -/
def parseAVIChunks (d : List Nat) (s : Strm) (st : PSt) : Bool × Strm × PSt :=
  let r := chunkLoop d (d.length + 1) s false st
  (r.1 && !r.2.2.frameOffsets.isEmpty, r.2.1, r.2.2)

/-! ## `determinePixelFormat` and `loadAVI` -/

/-- `AVIPlayer::determinePixelFormat`: rejects compressed formats and bit
depths outside 8/16/24/32; returns `(bitsPerPixel, bytesPerPixel)`. -/
def determinePixelFormat (bmp : BitmapInfoHeader) : Option (Nat × Nat) :=
  let bitsPerPixel := bmp.bitCount
  let bytesPerPixel := (bitsPerPixel + 7) / 8
  if bmp.compression ≠ 0 then none
  else if bitsPerPixel = 8 ∨ bitsPerPixel = 16 ∨ bitsPerPixel = 24 ∨ bitsPerPixel = 32 then
    some (bitsPerPixel, bytesPerPixel)
  else none

/-- The negative-height normalization of `loadAVI` (lines 56-65): a negative
bitmap height means a top-down image and the stored height is made positive. -/
def orientFromHeight (h : Int) : Bool × Int :=
  if h < 0 then (true, -h) else (false, h)

/-- The loaded player (the members of `AVIPlayer` that survive `loadAVI`). -/
structure Container where
  frameWidth : Nat
  frameHeight : Nat
  fps : Nat
  totalFrames : Nat
  bitsPerPixel : Nat
  bytesPerPixel : Nat
  isTopDown : Bool
  palette : List RGBQuad
  frameOffsets : List Nat
  frameSizes : List Nat
deriving DecidableEq, Repr

/-- `AVIPlayer::loadAVI` on an opened byte source: RIFF/AVI signature check,
chunk parse, fps computation (`1000000 / microSecPerFrame`, default 30),
dimension and orientation capture, and pixel-format validation.  `none` models
`return false`. -/
def loadAVI (d : List Nat) : Option Container :=
  match srd d ⟨0, false⟩ 12 with
  | (none, _) => none
  | (some riff, s0) =>
    if riff.take 4 = tagRIFF ∧ (riff.drop 8).take 4 = tagAVIsp then
      let r := parseAVIChunks d s0 initialState
      if r.1 then
        let st := r.2.2
        let fps := if st.mainHeader.microSecPerFrame > 0 then
            1000000 / st.mainHeader.microSecPerFrame
          else 30
        let ori := orientFromHeight st.bitmapHeader.height
        let frameHeight :=
          if st.bitmapHeader.height < 0 then ori.2.toNat else st.mainHeader.height
        match determinePixelFormat st.bitmapHeader with
        | none => none
        | some (bitsPerPixel, bytesPerPixel) =>
          some { frameWidth := st.mainHeader.width
                 frameHeight := frameHeight
                 fps := fps
                 totalFrames := st.mainHeader.totalFrames
                 bitsPerPixel := bitsPerPixel
                 bytesPerPixel := bytesPerPixel
                 isTopDown := ori.1
                 palette := st.palette
                 frameOffsets := st.frameOffsets
                 frameSizes := st.frameSizes }
      else none
    else none

/-- The sequence of frame indices the `play()` loop hands to `renderFrame`
(the loop runs `currentFrame` from 0 while `currentFrame < totalFrames`;
timing and the quit flag are external concerns). -/
def playFrames (c : Container) : List Nat := List.range c.totalFrames

/-! ## Frame decoding (`renderFrame` and the converters) -/

/-- The source row feeding output row `y`: `isTopDown ? y : (frameHeight - 1 - y)`. -/
def srcRow (topDown : Bool) (H y : Nat) : Nat := if topDown then y else H - 1 - y

/-- `AVIPlayer::convert8BitToRGB24`: palette lookup with fallback to opaque
black for out-of-range indices. -/
def convert8BitToRGB24 (frameData : List Nat) (W H : Nat) (topDown : Bool)
    (palette : List RGBQuad) : List (List Nat) :=
  (List.range H).map fun y =>
    let srcY := srcRow topDown H y
    ((List.range W).map fun x =>
      let paletteIndex := byteAt frameData (srcY * W + x)
      if paletteIndex < palette.length then
        let color := palette.getD paletteIndex ⟨0, 0, 0, 0⟩
        [color.red, color.green, color.blue]
      else [0, 0, 0]).flatten

/-- `AVIPlayer::convert16BitToRGB565`: 16-bit values are copied unchanged
(byte pair by byte pair, both sides little-endian). -/
def convert16BitToRGB565 (frameData : List Nat) (W H : Nat) (topDown : Bool) :
    List (List Nat) :=
  (List.range H).map fun y =>
    let srcY := srcRow topDown H y
    ((List.range W).map fun x =>
      [byteAt frameData (srcY * W * 2 + 2 * x),
       byteAt frameData (srcY * W * 2 + 2 * x + 1)]).flatten

/-- `AVIPlayer::convert24BitBGRToRGB`: destination (R,G,B) = source bytes at
offsets 2,1,0. -/
def convert24BitBGRToRGB (frameData : List Nat) (W H : Nat) (topDown : Bool) :
    List (List Nat) :=
  (List.range H).map fun y =>
    let srcY := srcRow topDown H y
    ((List.range W).map fun x =>
      [byteAt frameData (srcY * W * 3 + x * 3 + 2),
       byteAt frameData (srcY * W * 3 + x * 3 + 1),
       byteAt frameData (srcY * W * 3 + x * 3)]).flatten

/-- `AVIPlayer::convert32BitBGRAToRGBA`: destination (R,G,B,A) = source bytes
at offsets 2,1,0,3. -/
def convert32BitBGRAToRGBA (frameData : List Nat) (W H : Nat) (topDown : Bool) :
    List (List Nat) :=
  (List.range H).map fun y =>
    let srcY := srcRow topDown H y
    ((List.range W).map fun x =>
      [byteAt frameData (srcY * W * 4 + x * 4 + 2),
       byteAt frameData (srcY * W * 4 + x * 4 + 1),
       byteAt frameData (srcY * W * 4 + x * 4),
       byteAt frameData (srcY * W * 4 + x * 4 + 3)]).flatten

/-- `AVIPlayer::convertAndCopyFrame`: dispatch on `bitsPerPixel`; an
unsupported depth writes nothing (unreachable after a successful load). -/
def convertAndCopyFrame (bits : Nat) (palette : List RGBQuad) (frameData : List Nat)
    (W H : Nat) (topDown : Bool) : List (List Nat) :=
  if bits = 8 then convert8BitToRGB24 frameData W H topDown palette
  else if bits = 16 then convert16BitToRGB565 frameData W H topDown
  else if bits = 24 then convert24BitBGRToRGB frameData W H topDown
  else if bits = 32 then convert32BitBGRAToRGBA frameData W H topDown
  else []

/-- The frame bytes `renderFrame` hands to the converter: a zero-initialized
vector of the indexed size, filled with whatever bytes the file provides at
the indexed offset (a short file leaves the zero tail). -/
def readFrameData (d : List Nat) (off size : Nat) : List Nat :=
  (d.drop off).take size ++ List.replicate (size - min size (d.length - off)) 0

/-- Outcome of `renderFrame`: either a converted frame was written to the
texture, or the call returned early without doing anything.  The function has
no error channel. -/
inductive RenderResult where
  | rendered (tex : List (List Nat))
  | noRender
deriving DecidableEq, Repr

/-- `AVIPlayer::renderFrame(frameIndex)`: silently returns when
`frameIndex >= frameOffsets.size()`, otherwise reads the indexed bytes and
converts them. -/
def renderFrame (c : Container) (d : List Nat) (frameIndex : Nat) : RenderResult :=
  if frameIndex ≥ c.frameOffsets.length then .noRender
  else
    let off := c.frameOffsets.getD frameIndex 0
    let size := c.frameSizes.getD frameIndex 0
    let frameData := readFrameData d off size
    .rendered (convertAndCopyFrame c.bitsPerPixel c.palette frameData
      c.frameWidth c.frameHeight c.isTopDown)

/-- True exactly for the outcome in which a frame was written. -/
def isRendered : RenderResult → Bool
  | .rendered _ => true
  | .noRender => false

/-! ## Observation helpers used by the claim statements -/

/-- Playback bound (the count `play()` iterates to) paired with the number of
indexed frame entries. -/
def loadedCounts (d : List Nat) : Option (Nat × Nat) :=
  (loadAVI d).map fun c => ((playFrames c).length, c.frameOffsets.length)

/-- Number of indexed frame entries of a loaded file. -/
def frameCountOf (d : List Nat) : Option Nat :=
  (loadAVI d).map fun c => c.frameOffsets.length

/-- The fps value of a loaded file. -/
def fpsOf (d : List Nat) : Option Nat := (loadAVI d).map fun c => c.fps

/-- The bit depth of a loaded file. -/
def bppOf (d : List Nat) : Option Nat := (loadAVI d).map fun c => c.bitsPerPixel

/-- Load a file and render frame `i` out of it. -/
def renderAt (d : List Nat) (i : Nat) : Option RenderResult :=
  (loadAVI d).map fun c => renderFrame c d i

/-! ## Well-formed input files

The spec quantifies over "well-formed uncompressed AVI inputs"; the
constructors below build such inputs: a RIFF/AVI signature, a `hdrl` list with
an `avih` chunk and one (or two) `strl` lists each holding a video `strh` and
a 40-byte `strf`, followed by a `movi` list whose payload is an arbitrary
sequence of even-padded chunks. -/

/-- A movie-data chunk: a four-byte tag and a payload. -/
structure MChunk where
  tag : List Nat
  payload : List Nat
deriving DecidableEq, Repr

/-- On-disk form of a chunk: tag, little-endian length, payload, and a pad
byte when the payload length is odd. -/
def serializeChunk (c : MChunk) : List Nat :=
  c.tag ++ u32le c.payload.length ++ c.payload ++
    (if c.payload.length % 2 = 1 then [0] else [])

/-- On-disk form of a chunk sequence. -/
def serializeChunks (cs : List MChunk) : List Nat :=
  (cs.map serializeChunk).flatten

/-- Structural well-formedness of a movie chunk: a four-byte tag and a payload
whose length fits in 32 bits. -/
def WFChunk (c : MChunk) : Prop := c.tag.length = 4 ∧ c.payload.length < 4294967296

instance (c : MChunk) : Decidable (WFChunk c) := by
  unfold WFChunk
  infer_instance

/-- The number of chunks carrying one of the two video tags. -/
def countVideo (cs : List MChunk) : Nat :=
  cs.countP fun c => decide (c.tag = tag00dc ∨ c.tag = tag00db)

/-- The data offsets the indexer records for the video chunks of a serialized
chunk sequence starting at `base`. -/
def videoOffsets (base : Nat) : List MChunk → List Nat
  | [] => []
  | c :: cs =>
    (if c.tag = tag00dc ∨ c.tag = tag00db then [base + 8] else []) ++
      videoOffsets (base + 8 + paddedSize c.payload.length) cs

/-- The sizes the indexer records for the video chunks of a chunk sequence. -/
def videoSizes : List MChunk → List Nat
  | [] => []
  | c :: cs =>
    (if c.tag = tag00dc ∨ c.tag = tag00db then [c.payload.length] else []) ++ videoSizes cs

/-- An `avih` payload (56 bytes): duration, total frames, width, height at
their struct offsets; the remaining fields zero. -/
def avihBytes (micro total w h : Nat) : List Nat :=
  u32le micro ++ u32le 0 ++ u32le 0 ++ u32le 0 ++ u32le total ++ u32le 0 ++
    u32le 1 ++ u32le 0 ++ u32le w ++ u32le h ++ u32le 0 ++ u32le 0 ++ u32le 0 ++ u32le 0

/-- A video `strh` payload (56 bytes): `fccType = "vids"`, rest zero. -/
def strhBytes : List Nat := tagVids ++ List.replicate 52 0

/-- A `BitmapInfoHeader` payload (40 bytes). -/
def bmpBytes (w h : Int) (bitCount compression : Nat) : List Nat :=
  u32le 40 ++ i32le w ++ i32le h ++ u16le 1 ++ u16le bitCount ++ u32le compression ++
    u32le 0 ++ u32le 0 ++ u32le 0 ++ u32le 0 ++ u32le 0

/-- The `hdrl` payload with a single video stream: an `avih` chunk followed by
one `LIST strl` with `strh` and a 40-byte `strf`.  Length 188. -/
def hdrlPayload (micro total w h : Nat) (bmp : List Nat) : List Nat :=
  tagAvih ++ u32le 56 ++ avihBytes micro total w h ++
    tagLIST ++ u32le 116 ++ tagStrl ++
      tagStrh ++ u32le 56 ++ strhBytes ++
      tagStrf ++ u32le 40 ++ bmp

/-- A complete single-stream AVI file around an arbitrary movie-data payload
`movi` with declared `movi` LIST size `mdecl`.  The movie data starts at
offset 224. -/
def mkAVIBody (micro total w h : Nat) (bmp movi : List Nat) (mdecl : Nat) : List Nat :=
  tagRIFF ++ u32le 0 ++ tagAVIsp ++
    tagLIST ++ u32le 192 ++ tagHdrl ++ hdrlPayload micro total w h bmp ++
    tagLIST ++ u32le mdecl ++ tagMovi ++ movi

/-- A well-formed uncompressed 24-bit AVI file whose movie data is the
serialization of `cs`. -/
def mkAVI (micro total w h : Nat) (cs : List MChunk) : List Nat :=
  mkAVIBody micro total w h (bmpBytes 16 16 24 0) (serializeChunks cs)
    (4 + (serializeChunks cs).length)

/-- Like `mkAVI`, but the movie data ends with a chunk header whose declared
size `k` extends past end-of-file (the file ends right after that header),
while the declared `movi` size accounts for the missing bytes. -/
def mkAVITrunc (micro total w h : Nat) (cs : List MChunk) (tailTag : List Nat)
    (k : Nat) : List Nat :=
  mkAVIBody micro total w h (bmpBytes 16 16 24 0)
    (serializeChunks cs ++ tailTag ++ u32le k)
    (4 + (serializeChunks cs).length + 8 + paddedSize k)

/-- The `hdrl` payload with two video streams, each with its own `strh` and
40-byte `strf`.  Length 312. -/
def hdrlPayload2 (micro total w h : Nat) (bmp1 bmp2 : List Nat) : List Nat :=
  tagAvih ++ u32le 56 ++ avihBytes micro total w h ++
    tagLIST ++ u32le 116 ++ tagStrl ++
      tagStrh ++ u32le 56 ++ strhBytes ++
      tagStrf ++ u32le 40 ++ bmp1 ++
    tagLIST ++ u32le 116 ++ tagStrl ++
      tagStrh ++ u32le 56 ++ strhBytes ++
      tagStrf ++ u32le 40 ++ bmp2

/-- A well-formed AVI file declaring two video streams.  The movie data starts
at offset 348. -/
def mkAVI2 (micro total w h : Nat) (bmp1 bmp2 : List Nat) (cs : List MChunk) : List Nat :=
  tagRIFF ++ u32le 0 ++ tagAVIsp ++
    tagLIST ++ u32le 316 ++ tagHdrl ++ hdrlPayload2 micro total w h bmp1 bmp2 ++
    tagLIST ++ u32le (4 + (serializeChunks cs).length) ++ tagMovi ++ serializeChunks cs

/-! ## Concrete example files -/

/-- A well-formed file whose main header declares 5 frames while the movie
data holds a single video chunk. -/
def exampleF1 : List Nat := mkAVI 40000 5 4 4 [⟨tag00db, [1, 2, 3, 4]⟩]

/-- A file with an odd-sized, unpadded chunk between the header list and the
movie list: the parser's top-level skip does not round the declared size 1 up
to 2, and only because of that does it find the `LIST movi` header at
offset 221. -/
def exampleF2 : List Nat :=
  tagRIFF ++ u32le 0 ++ tagAVIsp ++
    tagLIST ++ u32le 192 ++ tagHdrl ++ hdrlPayload 40000 5 4 4 (bmpBytes 16 16 24 0) ++
    tagJUNK ++ u32le 1 ++ [0] ++
    tagLIST ++ u32le 16 ++ tagMovi ++ serializeChunks [⟨tag00db, [9, 9, 9, 9]⟩]

/-- A truncated file: after one good video chunk, a non-video chunk header
declares 100 payload bytes but the file ends immediately after the header. -/
def exampleF3 : List Nat := mkAVITrunc 40000 5 4 4 [⟨tag00db, [1, 2, 3, 4]⟩] tag00wb 100

/-- A two-video-stream file: first stream declares 24-bit, second declares
32-bit. -/
def exampleF4 : List Nat :=
  mkAVI2 40000 5 4 4 (bmpBytes 16 16 24 0) (bmpBytes 16 16 32 0) [⟨tag00db, [1, 2, 3, 4]⟩]

/-- The parser state after the single-stream header list has been consumed. -/
def headerState (micro total w h : Nat) (bmp : List Nat) : PSt :=
  { initialState with
    mainHeader := parseMainHeader (avihBytes micro total w h)
    fccType := tagVids
    bitmapHeader := parseBitmapHeader bmp }

/-! ## Basic facts about the primitives -/

@[simp] theorem u32le_length (n : Nat) : (u32le n).length = 4 := rfl

@[simp] theorem u16le_length (n : Nat) : (u16le n).length = 2 := rfl

@[simp] theorem i32le_length (n : Int) : (i32le n).length = 4 := rfl

@[simp] theorem avihBytes_length (micro total w h : Nat) :
    (avihBytes micro total w h).length = 56 := by
  simp [avihBytes]

@[simp] theorem strhBytes_length : strhBytes.length = 56 := by
  simp [strhBytes, tagVids]

@[simp] theorem bmpBytes_length (w h : Int) (bc comp : Nat) :
    (bmpBytes w h bc comp).length = 40 := by
  simp [bmpBytes]

@[simp] theorem hdrlPayload_length (micro total w h : Nat) (bmp : List Nat) :
    (hdrlPayload micro total w h bmp).length = 148 + bmp.length := by
  simp [hdrlPayload, tagAvih, tagLIST, tagStrl, tagStrh, tagStrf]
  omega

theorem mkAVIBody_length (micro total w h mdecl : Nat) (bmp movi : List Nat)
    (hbmp : bmp.length = 40) :
    (mkAVIBody micro total w h bmp movi mdecl).length = 224 + movi.length := by
  simp [mkAVIBody, tagRIFF, tagAVIsp, tagLIST, tagHdrl, tagMovi, hbmp]
  omega

@[simp] theorem serializeChunks_nil : serializeChunks [] = [] := rfl

theorem serializeChunks_cons (c : MChunk) (cs : List MChunk) :
    serializeChunks (c :: cs) = serializeChunk c ++ serializeChunks cs := by
  simp [serializeChunks]

theorem serializeChunk_length (c : MChunk) (h : c.tag.length = 4) :
    (serializeChunk c).length = 8 + paddedSize c.payload.length := by
  simp only [serializeChunk, paddedSize, List.length_append, u32le_length, h]
  split
  · simp only [List.length_cons, List.length_nil]
    omega
  · simp only [List.length_nil]
    omega

theorem length_le_serializeChunks (cs : List MChunk) :
    cs.length ≤ (serializeChunks cs).length := by
  induction cs with
  | nil => simp
  | cons c cs ih =>
    rw [serializeChunks_cons]
    have : 1 ≤ (serializeChunk c).length := by
      simp only [serializeChunk, List.length_append, u32le_length]
      omega
    simp only [List.length_cons, List.length_append]
    omega

theorem videoOffsets_length (base : Nat) (cs : List MChunk) :
    (videoOffsets base cs).length = countVideo cs := by
  induction cs generalizing base with
  | nil => simp [videoOffsets, countVideo]
  | cons c cs ih =>
    simp only [videoOffsets, countVideo, List.countP_cons, List.length_append, ih]
    by_cases hv : c.tag = tag00dc ∨ c.tag = tag00db <;>
      simp [hv, countVideo]
    omega

/-! ## Byte extraction lemmas -/

theorem byteAt_append_right (xs ys : List Nat) (i : Nat) :
    byteAt (xs ++ ys) (xs.length + i) = byteAt ys i := by
  unfold byteAt
  rw [List.getD_append_right xs ys 0 (xs.length + i) (by omega), Nat.add_sub_cancel_left]

theorem u32at_tag4 (t rest : List Nat) (i : Nat) (ht : t.length = 4) :
    u32at (t ++ rest) (4 + i) = u32at rest i := by
  simp only [u32at]
  rw [show (4 : Nat) + i = t.length + i by omega,
    show t.length + i + 1 = t.length + (i + 1) by omega,
    show t.length + i + 2 = t.length + (i + 2) by omega,
    show t.length + i + 3 = t.length + (i + 3) by omega,
    byteAt_append_right, byteAt_append_right, byteAt_append_right, byteAt_append_right]

theorem u32at_u32le (n : Nat) : u32at (u32le n) 0 = n % 4294967296 := by
  simp [u32at, u32le, byteAt]
  omega

theorem u32at_u32le_append (n : Nat) (rest : List Nat) :
    u32at (u32le n ++ rest) 0 = n % 4294967296 := by
  simp [u32at, u32le, byteAt]
  omega

theorem u32at_skip4 (m : Nat) (rest : List Nat) (i : Nat) (h4 : 4 ≤ i) :
    u32at (u32le m ++ rest) i = u32at rest (i - 4) := by
  have := u32at_tag4 (u32le m) rest (i - 4) (by simp)
  rw [show 4 + (i - 4) = i by omega] at this
  exact this

theorem u32sub_exact (a b : Nat) (hb : b ≤ a) (ha : a < 4294967296) :
    u32sub a b = a - b := by
  unfold u32sub
  omega

/-- The fields actually read from a serialized `avih` payload. -/
theorem parseMainHeader_avihBytes (micro total w h : Nat) :
    parseMainHeader (avihBytes micro total w h) =
      ⟨micro % 4294967296, total % 4294967296, w % 4294967296, h % 4294967296⟩ := by
  have e : avihBytes micro total w h =
      u32le micro ++ (u32le 0 ++ (u32le 0 ++ (u32le 0 ++ (u32le total ++ (u32le 0 ++
        (u32le 1 ++ (u32le 0 ++ (u32le w ++ (u32le h ++ (u32le 0 ++ (u32le 0 ++
          (u32le 0 ++ u32le 0)))))))))))) := by
    simp [avihBytes]
  simp only [parseMainHeader, e]
  simp [u32at_skip4, u32at_u32le_append]

/-! ## Exact reads and loop exits -/

/-- Reading `n` bytes at the start of segment `seg` of the source returns
exactly `seg` and advances the cursor past it. -/
theorem srd_seg (d pre seg post : List Nat) (p n : Nat)
    (hd : d = pre ++ (seg ++ post)) (hp : pre.length = p) (hn : seg.length = n) :
    srd d ⟨p, false⟩ n = (some seg, ⟨p + n, false⟩) := by
  subst hd hp hn
  have hle : pre.length + seg.length ≤ (pre ++ (seg ++ post)).length := by
    simp only [List.length_append]
    omega
  simp only [srd, hle, if_true, Bool.false_eq_true, if_false]
  rw [List.drop_left, List.take_left]

theorem indexLoop_exit (d : List Nat) (fuel bound : Nat) (p : Nat) (st : PSt)
    (h1 : ¬p < bound) :
    indexLoop d fuel ⟨p, false⟩ bound st = (⟨p, false⟩, st) := by
  cases fuel <;> simp [indexLoop, h1]

theorem headerLoop_exit (d : List Nat) (fuel size bytesRead : Nat) (s : Strm) (st : PSt)
    (h1 : ¬bytesRead < size) :
    headerLoop d fuel s size bytesRead st = (s, st) := by
  cases fuel <;> simp [headerLoop, h1]

theorem streamLoop_exit (d : List Nat) (fuel size bytesRead : Nat) (s : Strm) (st : PSt)
    (h1 : ¬bytesRead < size) :
    streamLoop d fuel s size bytesRead st = (s, st) := by
  cases fuel <;> simp [streamLoop, h1]

/-! ## Single-iteration step lemmas for the parsing loops -/

/-- One `indexFrames` iteration: reading a chunk header at `p` records the
chunk when it carries a video tag and always continues at
`p + 8 + paddedSize size` (the only even-padded skip in the player). -/
theorem indexLoop_step (d : List Nat) (fuel bound p : Nat) (st : PSt) (hdr : List Nat)
    (h8 : srd d ⟨p, false⟩ 8 = (some hdr, ⟨p + 8, false⟩)) (hlt : p < bound) :
    indexLoop d (fuel + 1) ⟨p, false⟩ bound st =
      indexLoop d fuel ⟨p + 8 + paddedSize (u32at hdr 4), false⟩ bound
        (if hdr.take 4 = tag00dc ∨ hdr.take 4 = tag00db then
          { st with frameOffsets := st.frameOffsets ++ [p + 8]
                    frameSizes := st.frameSizes ++ [u32at hdr 4] }
         else st) := by
  simp only [indexLoop, hlt, true_or, if_true, h8, sseek, Bool.false_eq_true, if_false,
    paddedSize]

/-- One `parseStreamList` iteration on a `strh` chunk of declared size 56:
captures the stream type from the first four payload bytes. -/
theorem streamLoop_step_strh (d : List Nat) (fuel size bytesRead p q1 q2 : Nat)
    (st : PSt) (body : List Nat)
    (h8 : srd d ⟨p, false⟩ 8 = (some (tagStrh ++ u32le 56), ⟨q1, false⟩))
    (h56 : srd d ⟨q1, false⟩ 56 = (some body, ⟨q2, false⟩))
    (hbr : bytesRead < size) :
    streamLoop d (fuel + 1) ⟨p, false⟩ size bytesRead st =
      streamLoop d fuel ⟨q2, false⟩ size
        (((bytesRead + 8) % 4294967296 + 56) % 4294967296)
        { st with fccType := body.take 4 } := by
  have e1 : (tagStrh ++ u32le 56).take 4 = tagStrh := by decide
  have e2 : u32at (tagStrh ++ u32le 56) 4 = 56 := by decide
  simp only [streamLoop, hbr, if_true, h8, e1, e2, h56, if_pos rfl]

/-- One `parseStreamList` iteration on a `strf` chunk of declared size 40 when
the current stream type is `vids`: captures the bitmap header; declared size
40 leaves no palette bytes. -/
theorem streamLoop_step_strf (d : List Nat) (fuel size bytesRead p q1 q2 : Nat)
    (st : PSt) (body : List Nat)
    (h8 : srd d ⟨p, false⟩ 8 = (some (tagStrf ++ u32le 40), ⟨q1, false⟩))
    (h40 : srd d ⟨q1, false⟩ 40 = (some body, ⟨q2, false⟩))
    (hbr : bytesRead < size) (hv : st.fccType = tagVids) :
    streamLoop d (fuel + 1) ⟨p, false⟩ size bytesRead st =
      streamLoop d fuel ⟨q2, false⟩ size
        (((bytesRead + 8) % 4294967296 + 40) % 4294967296)
        { st with bitmapHeader := parseBitmapHeader body } := by
  have e1 : (tagStrf ++ u32le 40).take 4 = tagStrf := by decide
  have e2 : u32at (tagStrf ++ u32le 40) 4 = 40 := by decide
  have e3 : tagStrf ≠ tagStrh := by decide
  have e4 : u32sub 40 40 = 0 := by decide
  simp only [streamLoop, hbr, if_true, h8, e1, e2, e3, if_false, h40, hv, if_pos rfl,
    e4, lt_self_iff_false, false_and, gt_iff_lt, if_false]

/-- One `parseStreamList` iteration on a chunk that is neither `strh` nor
`strf`: the skip advances by exactly `8 + size`, with no even-byte rounding. -/
theorem streamLoop_step_skip (d : List Nat) (fuel size bytesRead p : Nat)
    (st : PSt) (hdr : List Nat)
    (h8 : srd d ⟨p, false⟩ 8 = (some hdr, ⟨p + 8, false⟩))
    (hbr : bytesRead < size)
    (ht1 : hdr.take 4 ≠ tagStrh) (ht2 : hdr.take 4 ≠ tagStrf) :
    streamLoop d (fuel + 1) ⟨p, false⟩ size bytesRead st =
      streamLoop d fuel ⟨p + 8 + u32at hdr 4, false⟩ size
        (((bytesRead + 8) % 4294967296 + u32at hdr 4) % 4294967296) st := by
  simp only [streamLoop, hbr, if_true, h8, ht1, ht2, if_false, sseek,
    Bool.false_eq_true]

/-- One `parseHeaderList` iteration on an `avih` chunk of declared size 56:
captures the main header. -/
theorem headerLoop_step_avih (d : List Nat) (fuel size bytesRead p q1 q2 : Nat)
    (st : PSt) (body : List Nat)
    (h8 : srd d ⟨p, false⟩ 8 = (some (tagAvih ++ u32le 56), ⟨q1, false⟩))
    (h56 : srd d ⟨q1, false⟩ 56 = (some body, ⟨q2, false⟩))
    (hbr : bytesRead < size) :
    headerLoop d (fuel + 1) ⟨p, false⟩ size bytesRead st =
      headerLoop d fuel ⟨q2, false⟩ size
        (((bytesRead + 8) % 4294967296 + 56) % 4294967296)
        { st with mainHeader := parseMainHeader body } := by
  have e1 : (tagAvih ++ u32le 56).take 4 = tagAvih := by decide
  have e2 : u32at (tagAvih ++ u32le 56) 4 = 56 := by decide
  simp only [headerLoop, hbr, if_true, h8, e1, e2, h56, if_pos rfl]

/-- One `parseHeaderList` iteration on a `LIST strl` chunk of declared size
`lsz`: recurses into `parseStreamList` over `lsz - 4` payload bytes. -/
theorem headerLoop_step_strl (d : List Nat) (fuel size bytesRead p q1 q2 lsz : Nat)
    (st : PSt)
    (h8 : srd d ⟨p, false⟩ 8 = (some (tagLIST ++ u32le lsz), ⟨q1, false⟩))
    (h4 : srd d ⟨q1, false⟩ 4 = (some tagStrl, ⟨q2, false⟩))
    (hbr : bytesRead < size) (hlsz : lsz < 4294967296) :
    headerLoop d (fuel + 1) ⟨p, false⟩ size bytesRead st =
      headerLoop d fuel (parseStreamList d ⟨q2, false⟩ (u32sub lsz 4) st).1 size
        ((((bytesRead + 8) % 4294967296 + 4) % 4294967296 + lsz) % 4294967296)
        (parseStreamList d ⟨q2, false⟩ (u32sub lsz 4) st).2 := by
  have e1 : (tagLIST ++ u32le lsz).take 4 = tagLIST := List.take_left' (by decide)
  have e2 : u32at (tagLIST ++ u32le lsz) 4 = lsz := by
    have hx := u32at_tag4 tagLIST (u32le lsz) 0 (by decide)
    norm_num at hx
    rw [hx, u32at_u32le, Nat.mod_eq_of_lt hlsz]
  have e3 : tagLIST ≠ tagAvih := by decide
  simp only [headerLoop, hbr, if_true, h8, e1, e2, e3, if_false, h4, if_pos rfl]

/-- One `parseHeaderList` iteration on a chunk that is neither `avih` nor a
`LIST`: the skip advances by exactly `8 + size`, with no even-byte rounding. -/
theorem headerLoop_step_skip (d : List Nat) (fuel size bytesRead p : Nat)
    (st : PSt) (hdr : List Nat)
    (h8 : srd d ⟨p, false⟩ 8 = (some hdr, ⟨p + 8, false⟩))
    (hbr : bytesRead < size)
    (ht1 : hdr.take 4 ≠ tagAvih) (ht2 : hdr.take 4 ≠ tagLIST) :
    headerLoop d (fuel + 1) ⟨p, false⟩ size bytesRead st =
      headerLoop d fuel ⟨p + 8 + u32at hdr 4, false⟩ size
        (((bytesRead + 8) % 4294967296 + u32at hdr 4) % 4294967296) st := by
  simp only [headerLoop, hbr, if_true, h8, ht1, ht2, if_false, sseek,
    Bool.false_eq_true]

/-- One `parseAVIChunks` iteration on `LIST hdrl`: recurses into
`parseHeaderList` and sets `foundMainHeader`. -/
theorem chunkLoop_step_hdrl (d : List Nat) (fuel p q1 q2 lsz : Nat)
    (found : Bool) (st : PSt)
    (h8 : srd d ⟨p, false⟩ 8 = (some (tagLIST ++ u32le lsz), ⟨q1, false⟩))
    (h4 : srd d ⟨q1, false⟩ 4 = (some tagHdrl, ⟨q2, false⟩)) :
    chunkLoop d (fuel + 1) ⟨p, false⟩ found st =
      chunkLoop d fuel (parseHeaderList d ⟨q2, false⟩ (u32sub lsz 4) st).1 true
        (parseHeaderList d ⟨q2, false⟩ (u32sub lsz 4) st).2 := by
  have e1 : (tagLIST ++ u32le lsz).take 4 = tagLIST := List.take_left' (by decide)
  have e2 : u32at (tagLIST ++ u32le lsz) 4 = lsz % 4294967296 := by
    have hx := u32at_tag4 tagLIST (u32le lsz) 0 (by decide)
    norm_num at hx
    rw [hx, u32at_u32le]
  have e3 : u32sub (lsz % 4294967296) 4 = u32sub lsz 4 := by
    unfold u32sub
    omega
  simp only [chunkLoop, h8, e1, e2, e3, if_pos rfl, h4, if_true]

/-- One `parseAVIChunks` iteration on `LIST movi`: indexes the movie data and
breaks out of the loop. -/
theorem chunkLoop_step_movi (d : List Nat) (fuel p q1 q2 lsz : Nat)
    (found : Bool) (st : PSt)
    (h8 : srd d ⟨p, false⟩ 8 = (some (tagLIST ++ u32le lsz), ⟨q1, false⟩))
    (h4 : srd d ⟨q1, false⟩ 4 = (some tagMovi, ⟨q2, false⟩)) :
    chunkLoop d (fuel + 1) ⟨p, false⟩ found st =
      (found, (indexFrames d ⟨q2, false⟩ (u32sub lsz 4) st).1,
        (indexFrames d ⟨q2, false⟩ (u32sub lsz 4) st).2) := by
  have e1 : (tagLIST ++ u32le lsz).take 4 = tagLIST := List.take_left' (by decide)
  have e2 : u32at (tagLIST ++ u32le lsz) 4 = lsz % 4294967296 := by
    have hx := u32at_tag4 tagLIST (u32le lsz) 0 (by decide)
    norm_num at hx
    rw [hx, u32at_u32le]
  have e3 : u32sub (lsz % 4294967296) 4 = u32sub lsz 4 := by
    unfold u32sub
    omega
  have e4 : tagMovi ≠ tagHdrl := by decide
  simp only [chunkLoop, h8, e1, e2, e3, if_pos rfl, h4, e4, if_false, if_true]

/-- One `parseAVIChunks` iteration on a non-`LIST` chunk: the skip advances by
exactly `8 + size`, with no even-byte rounding. -/
theorem chunkLoop_step_skip (d : List Nat) (fuel p : Nat) (found : Bool)
    (st : PSt) (hdr : List Nat)
    (h8 : srd d ⟨p, false⟩ 8 = (some hdr, ⟨p + 8, false⟩))
    (ht : hdr.take 4 ≠ tagLIST) :
    chunkLoop d (fuel + 1) ⟨p, false⟩ found st =
      chunkLoop d fuel ⟨p + 8 + u32at hdr 4, false⟩ found st := by
  simp only [chunkLoop, h8, ht, if_false, sseek, Bool.false_eq_true]

/-! ## Walking the header phase of a well-formed file -/

/-- `parseStreamList` over a serialized video `strl` payload (a `strh` of
declared size 56 followed by a `strf` of declared size 40): captures the
stream type and the bitmap header and consumes exactly 112 bytes. -/
theorem streamLoop_strl (d pre post bmp : List Nat) (p fuel : Nat) (st : PSt)
    (hd : d = pre ++ (tagStrh ++ (u32le 56 ++ (strhBytes ++ (tagStrf ++ (u32le 40 ++ (bmp ++ post)))))))
    (hp : pre.length = p) (hbmp : bmp.length = 40) (hfuel : 3 ≤ fuel) :
    streamLoop d fuel ⟨p, false⟩ 112 0 st =
      (⟨p + 112, false⟩,
       { st with fccType := tagVids, bitmapHeader := parseBitmapHeader bmp }) := by
  obtain ⟨f, rfl⟩ : ∃ f, fuel = f + 1 + 1 + 1 := ⟨fuel - 3, by omega⟩
  have h1 : srd d ⟨p, false⟩ 8 = (some (tagStrh ++ u32le 56), ⟨p + 8, false⟩) :=
    srd_seg d pre (tagStrh ++ u32le 56)
      (strhBytes ++ (tagStrf ++ (u32le 40 ++ (bmp ++ post)))) p 8
      (by rw [hd]; simp) hp (by simp [tagStrh])
  have h2 : srd d ⟨p + 8, false⟩ 56 = (some strhBytes, ⟨p + 64, false⟩) := by
    have h := srd_seg d (pre ++ (tagStrh ++ u32le 56)) strhBytes
      (tagStrf ++ (u32le 40 ++ (bmp ++ post))) (p + 8) 56
      (by rw [hd]; simp) (by simp [hp, tagStrh]) strhBytes_length
    rwa [show p + 8 + 56 = p + 64 by omega] at h
  have h3 : srd d ⟨p + 64, false⟩ 8 = (some (tagStrf ++ u32le 40), ⟨p + 72, false⟩) := by
    have h := srd_seg d (pre ++ (tagStrh ++ (u32le 56 ++ strhBytes))) (tagStrf ++ u32le 40)
      (bmp ++ post) (p + 64) 8
      (by rw [hd]; simp) (by simp [hp, tagStrh]) (by simp [tagStrf])
    rwa [show p + 64 + 8 = p + 72 by omega] at h
  have h4 : srd d ⟨p + 72, false⟩ 40 = (some bmp, ⟨p + 112, false⟩) := by
    have h := srd_seg d (pre ++ (tagStrh ++ (u32le 56 ++ (strhBytes ++ (tagStrf ++ u32le 40)))))
      bmp post (p + 72) 40
      (by rw [hd]; simp) (by simp [hp, tagStrh, tagStrf]) hbmp
    rwa [show p + 72 + 40 = p + 112 by omega] at h
  rw [streamLoop_step_strh d (f + 1 + 1) 112 0 p (p + 8) (p + 64) st strhBytes h1 h2
    (by norm_num)]
  rw [show ((0 + 8) % 4294967296 + 56) % 4294967296 = 64 by norm_num,
    show strhBytes.take 4 = tagVids from by decide]
  rw [streamLoop_step_strf d (f + 1) 112 64 (p + 64) (p + 72) (p + 112) _ bmp h3 h4
    (by norm_num) rfl]
  rw [show ((64 + 8) % 4294967296 + 40) % 4294967296 = 112 by norm_num]
  rw [streamLoop_exit d (f + 1) 112 112 _ _ (by norm_num)]

/-- `parseHeaderList` over the single-stream header payload: captures the main
header, stream type and bitmap header and consumes exactly 188 bytes. -/
theorem headerLoop_hdrl (d pre post bmp : List Nat) (micro total w h : Nat)
    (p fuel : Nat) (st : PSt)
    (hd : d = pre ++ (hdrlPayload micro total w h bmp ++ post))
    (hp : pre.length = p) (hbmp : bmp.length = 40) (hfuel : 3 ≤ fuel)
    (hsfuel : 3 ≤ d.length + 1) :
    headerLoop d fuel ⟨p, false⟩ 188 0 st =
      (⟨p + 188, false⟩,
       { st with mainHeader := parseMainHeader (avihBytes micro total w h)
                 fccType := tagVids
                 bitmapHeader := parseBitmapHeader bmp }) := by
  obtain ⟨f, rfl⟩ : ∃ f, fuel = f + 1 + 1 + 1 := ⟨fuel - 3, by omega⟩
  have h1 : srd d ⟨p, false⟩ 8 = (some (tagAvih ++ u32le 56), ⟨p + 8, false⟩) :=
    srd_seg d pre (tagAvih ++ u32le 56)
      (avihBytes micro total w h ++ (tagLIST ++ (u32le 116 ++ (tagStrl ++ (tagStrh ++
        (u32le 56 ++ (strhBytes ++ (tagStrf ++ (u32le 40 ++ (bmp ++ post)))))))))) p 8
      (by rw [hd]; simp [hdrlPayload]) hp (by simp [tagAvih])
  have h2 : srd d ⟨p + 8, false⟩ 56 = (some (avihBytes micro total w h), ⟨p + 64, false⟩) := by
    have hh := srd_seg d (pre ++ (tagAvih ++ u32le 56)) (avihBytes micro total w h)
      (tagLIST ++ (u32le 116 ++ (tagStrl ++ (tagStrh ++ (u32le 56 ++ (strhBytes ++
        (tagStrf ++ (u32le 40 ++ (bmp ++ post))))))))) (p + 8) 56
      (by rw [hd]; simp [hdrlPayload]) (by simp [hp, tagAvih]) (avihBytes_length micro total w h)
    rwa [show p + 8 + 56 = p + 64 by omega] at hh
  have h3 : srd d ⟨p + 64, false⟩ 8 = (some (tagLIST ++ u32le 116), ⟨p + 72, false⟩) := by
    have hh := srd_seg d (pre ++ (tagAvih ++ (u32le 56 ++ avihBytes micro total w h)))
      (tagLIST ++ u32le 116)
      (tagStrl ++ (tagStrh ++ (u32le 56 ++ (strhBytes ++ (tagStrf ++ (u32le 40 ++
        (bmp ++ post))))))) (p + 64) 8
      (by rw [hd]; simp [hdrlPayload]) (by simp [hp, tagAvih]) (by simp [tagLIST])
    rwa [show p + 64 + 8 = p + 72 by omega] at hh
  have h4 : srd d ⟨p + 72, false⟩ 4 = (some tagStrl, ⟨p + 76, false⟩) := by
    have hh := srd_seg d
      (pre ++ (tagAvih ++ (u32le 56 ++ (avihBytes micro total w h ++ (tagLIST ++ u32le 116)))))
      tagStrl
      (tagStrh ++ (u32le 56 ++ (strhBytes ++ (tagStrf ++ (u32le 40 ++ (bmp ++ post))))))
      (p + 72) 4
      (by rw [hd]; simp [hdrlPayload]) (by simp [hp, tagAvih, tagLIST]) (by simp [tagStrl])
    rwa [show p + 72 + 4 = p + 76 by omega] at hh
  rw [headerLoop_step_avih d (f + 1 + 1) 188 0 p (p + 8) (p + 64) st
    (avihBytes micro total w h) h1 h2 (by norm_num)]
  rw [show ((0 + 8) % 4294967296 + 56) % 4294967296 = 64 by norm_num]
  rw [headerLoop_step_strl d (f + 1) 188 64 (p + 64) (p + 72) (p + 76) 116 _ h3 h4
    (by norm_num) (by norm_num)]
  rw [show u32sub 116 4 = 112 from by decide]
  rw [show parseStreamList d ⟨p + 76, false⟩ 112
        { st with mainHeader := parseMainHeader (avihBytes micro total w h) } =
      streamLoop d (d.length + 1) ⟨p + 76, false⟩ 112 0
        { st with mainHeader := parseMainHeader (avihBytes micro total w h) } from rfl]
  rw [streamLoop_strl d
    (pre ++ (tagAvih ++ (u32le 56 ++ (avihBytes micro total w h ++ (tagLIST ++
      (u32le 116 ++ tagStrl)))))) post bmp (p + 76) (d.length + 1) _
    (by rw [hd]; simp [hdrlPayload]) (by simp [hp, tagAvih, tagLIST, tagStrl]) hbmp hsfuel]
  rw [show ((64 + 8) % 4294967296 + 4) % 4294967296 = 76 from by norm_num]
  rw [show (76 + 116) % 4294967296 = 192 from by norm_num]
  rw [show p + 76 + 112 = p + 188 by omega]
  rw [headerLoop_exit d (f + 1) 188 192 _ _ (by norm_num)]

/-- `parseHeaderList` over the two-stream header payload: each video stream's
`strf` overwrites the captured bitmap header, so the second stream wins;
consumes exactly 312 bytes. -/
theorem headerLoop_hdrl2 (d pre post bmp1 bmp2 : List Nat) (micro total w h : Nat)
    (p fuel : Nat) (st : PSt)
    (hd : d = pre ++ (hdrlPayload2 micro total w h bmp1 bmp2 ++ post))
    (hp : pre.length = p) (hbmp1 : bmp1.length = 40) (hbmp2 : bmp2.length = 40)
    (hfuel : 4 ≤ fuel) (hsfuel : 3 ≤ d.length + 1) :
    headerLoop d fuel ⟨p, false⟩ 312 0 st =
      (⟨p + 312, false⟩,
       { st with mainHeader := parseMainHeader (avihBytes micro total w h)
                 fccType := tagVids
                 bitmapHeader := parseBitmapHeader bmp2 }) := by
  obtain ⟨f, rfl⟩ : ∃ f, fuel = f + 1 + 1 + 1 + 1 := ⟨fuel - 4, by omega⟩
  have h1 : srd d ⟨p, false⟩ 8 = (some (tagAvih ++ u32le 56), ⟨p + 8, false⟩) :=
    srd_seg d pre (tagAvih ++ u32le 56)
      (avihBytes micro total w h ++ (tagLIST ++ (u32le 116 ++ (tagStrl ++ (tagStrh ++
        (u32le 56 ++ (strhBytes ++ (tagStrf ++ (u32le 40 ++ (bmp1 ++ (tagLIST ++
        (u32le 116 ++ (tagStrl ++ (tagStrh ++ (u32le 56 ++ (strhBytes ++ (tagStrf ++
        (u32le 40 ++ (bmp2 ++ post))))))))))))))))))) p 8
      (by rw [hd]; simp [hdrlPayload2]) hp (by simp [tagAvih])
  have h2 : srd d ⟨p + 8, false⟩ 56 = (some (avihBytes micro total w h), ⟨p + 64, false⟩) := by
    have hh := srd_seg d (pre ++ (tagAvih ++ u32le 56)) (avihBytes micro total w h)
      (tagLIST ++ (u32le 116 ++ (tagStrl ++ (tagStrh ++ (u32le 56 ++ (strhBytes ++
        (tagStrf ++ (u32le 40 ++ (bmp1 ++ (tagLIST ++ (u32le 116 ++ (tagStrl ++
        (tagStrh ++ (u32le 56 ++ (strhBytes ++ (tagStrf ++ (u32le 40 ++ (bmp2 ++
        post)))))))))))))))))) (p + 8) 56
      (by rw [hd]; simp [hdrlPayload2]) (by simp [hp, tagAvih])
      (avihBytes_length micro total w h)
    rwa [show p + 8 + 56 = p + 64 by omega] at hh
  have h3 : srd d ⟨p + 64, false⟩ 8 = (some (tagLIST ++ u32le 116), ⟨p + 72, false⟩) := by
    have hh := srd_seg d (pre ++ (tagAvih ++ (u32le 56 ++ avihBytes micro total w h)))
      (tagLIST ++ u32le 116)
      (tagStrl ++ (tagStrh ++ (u32le 56 ++ (strhBytes ++ (tagStrf ++ (u32le 40 ++
        (bmp1 ++ (tagLIST ++ (u32le 116 ++ (tagStrl ++ (tagStrh ++ (u32le 56 ++
        (strhBytes ++ (tagStrf ++ (u32le 40 ++ (bmp2 ++ post)))))))))))))))) (p + 64) 8
      (by rw [hd]; simp [hdrlPayload2]) (by simp [hp, tagAvih]) (by simp [tagLIST])
    rwa [show p + 64 + 8 = p + 72 by omega] at hh
  have h4 : srd d ⟨p + 72, false⟩ 4 = (some tagStrl, ⟨p + 76, false⟩) := by
    have hh := srd_seg d
      (pre ++ (tagAvih ++ (u32le 56 ++ (avihBytes micro total w h ++ (tagLIST ++ u32le 116)))))
      tagStrl
      (tagStrh ++ (u32le 56 ++ (strhBytes ++ (tagStrf ++ (u32le 40 ++ (bmp1 ++ (tagLIST ++
        (u32le 116 ++ (tagStrl ++ (tagStrh ++ (u32le 56 ++ (strhBytes ++ (tagStrf ++
        (u32le 40 ++ (bmp2 ++ post)))))))))))))))
      (p + 72) 4
      (by rw [hd]; simp [hdrlPayload2]) (by simp [hp, tagAvih, tagLIST]) (by simp [tagStrl])
    rwa [show p + 72 + 4 = p + 76 by omega] at hh
  have h5 : srd d ⟨p + 188, false⟩ 8 = (some (tagLIST ++ u32le 116), ⟨p + 196, false⟩) := by
    have hh := srd_seg d
      (pre ++ (tagAvih ++ (u32le 56 ++ (avihBytes micro total w h ++ (tagLIST ++
        (u32le 116 ++ (tagStrl ++ (tagStrh ++ (u32le 56 ++ (strhBytes ++ (tagStrf ++
        (u32le 40 ++ bmp1))))))))))))
      (tagLIST ++ u32le 116)
      (tagStrl ++ (tagStrh ++ (u32le 56 ++ (strhBytes ++ (tagStrf ++ (u32le 40 ++
        (bmp2 ++ post))))))) (p + 188) 8
      (by rw [hd]; simp [hdrlPayload2])
      (by simp [hp, tagAvih, tagLIST, tagStrl, tagStrh, tagStrf, hbmp1])
      (by simp [tagLIST])
    rwa [show p + 188 + 8 = p + 196 by omega] at hh
  have h6 : srd d ⟨p + 196, false⟩ 4 = (some tagStrl, ⟨p + 200, false⟩) := by
    have hh := srd_seg d
      (pre ++ (tagAvih ++ (u32le 56 ++ (avihBytes micro total w h ++ (tagLIST ++
        (u32le 116 ++ (tagStrl ++ (tagStrh ++ (u32le 56 ++ (strhBytes ++ (tagStrf ++
        (u32le 40 ++ (bmp1 ++ (tagLIST ++ u32le 116))))))))))))))
      tagStrl
      (tagStrh ++ (u32le 56 ++ (strhBytes ++ (tagStrf ++ (u32le 40 ++ (bmp2 ++ post))))))
      (p + 196) 4
      (by rw [hd]; simp [hdrlPayload2])
      (by simp [hp, tagAvih, tagLIST, tagStrl, tagStrh, tagStrf, hbmp1])
      (by simp [tagStrl])
    rwa [show p + 196 + 4 = p + 200 by omega] at hh
  rw [headerLoop_step_avih d (f + 1 + 1 + 1) 312 0 p (p + 8) (p + 64) st
    (avihBytes micro total w h) h1 h2 (by norm_num)]
  rw [show ((0 + 8) % 4294967296 + 56) % 4294967296 = 64 by norm_num]
  rw [headerLoop_step_strl d (f + 1 + 1) 312 64 (p + 64) (p + 72) (p + 76) 116 _ h3 h4
    (by norm_num) (by norm_num)]
  rw [show u32sub 116 4 = 112 from by decide]
  rw [show parseStreamList d ⟨p + 76, false⟩ 112
        { st with mainHeader := parseMainHeader (avihBytes micro total w h) } =
      streamLoop d (d.length + 1) ⟨p + 76, false⟩ 112 0
        { st with mainHeader := parseMainHeader (avihBytes micro total w h) } from rfl]
  rw [streamLoop_strl d
    (pre ++ (tagAvih ++ (u32le 56 ++ (avihBytes micro total w h ++ (tagLIST ++
      (u32le 116 ++ tagStrl))))))
    (tagLIST ++ (u32le 116 ++ (tagStrl ++ (tagStrh ++ (u32le 56 ++ (strhBytes ++
      (tagStrf ++ (u32le 40 ++ (bmp2 ++ post)))))))))
    bmp1 (p + 76) (d.length + 1) _
    (by rw [hd]; simp [hdrlPayload2]) (by simp [hp, tagAvih, tagLIST, tagStrl]) hbmp1 hsfuel]
  rw [show ((64 + 8) % 4294967296 + 4) % 4294967296 = 76 from by norm_num]
  rw [show (76 + 116) % 4294967296 = 192 from by norm_num]
  rw [show p + 76 + 112 = p + 188 by omega]
  rw [headerLoop_step_strl d (f + 1) 312 192 (p + 188) (p + 196) (p + 200) 116 _ h5 h6
    (by norm_num) (by norm_num)]
  rw [show u32sub 116 4 = 112 from by decide]
  rw [show parseStreamList d ⟨p + 200, false⟩ 112
        { st with mainHeader := parseMainHeader (avihBytes micro total w h)
                  fccType := tagVids
                  bitmapHeader := parseBitmapHeader bmp1 } =
      streamLoop d (d.length + 1) ⟨p + 200, false⟩ 112 0
        { st with mainHeader := parseMainHeader (avihBytes micro total w h)
                  fccType := tagVids
                  bitmapHeader := parseBitmapHeader bmp1 } from rfl]
  rw [streamLoop_strl d
    (pre ++ (tagAvih ++ (u32le 56 ++ (avihBytes micro total w h ++ (tagLIST ++
      (u32le 116 ++ (tagStrl ++ (tagStrh ++ (u32le 56 ++ (strhBytes ++ (tagStrf ++
      (u32le 40 ++ (bmp1 ++ (tagLIST ++ (u32le 116 ++ tagStrl)))))))))))))))
    post bmp2 (p + 200) (d.length + 1) _
    (by rw [hd]; simp [hdrlPayload2])
    (by simp [hp, tagAvih, tagLIST, tagStrl, tagStrh, tagStrf, hbmp1]) hbmp2 hsfuel]
  rw [show ((192 + 8) % 4294967296 + 4) % 4294967296 = 204 from by norm_num]
  rw [show (204 + 116) % 4294967296 = 320 from by norm_num]
  rw [show p + 200 + 112 = p + 312 by omega]
  rw [headerLoop_exit d (f + 1) 312 320 _ _ (by norm_num)]

/-- `parseAVIChunks` over a single-stream file: finds the header list, then
hands the movie payload to `indexFrames` at offset 224 and breaks. -/
theorem chunkLoop_mkAVIBody (micro total w h mdecl : Nat) (bmp movi : List Nat) (fuel : Nat)
    (hbmp : bmp.length = 40) (hfuel : 2 ≤ fuel) :
    chunkLoop (mkAVIBody micro total w h bmp movi mdecl) fuel ⟨12, false⟩ false initialState =
      (true,
       (indexFrames (mkAVIBody micro total w h bmp movi mdecl) ⟨224, false⟩ (u32sub mdecl 4)
          (headerState micro total w h bmp)).1,
       (indexFrames (mkAVIBody micro total w h bmp movi mdecl) ⟨224, false⟩ (u32sub mdecl 4)
          (headerState micro total w h bmp)).2) := by
  obtain ⟨f, rfl⟩ : ∃ f, fuel = f + 1 + 1 := ⟨fuel - 2, by omega⟩
  have hlen : (mkAVIBody micro total w h bmp movi mdecl).length = 224 + movi.length :=
    mkAVIBody_length micro total w h mdecl bmp movi hbmp
  have h1 : srd (mkAVIBody micro total w h bmp movi mdecl) ⟨12, false⟩ 8 =
      (some (tagLIST ++ u32le 192), ⟨20, false⟩) := by
    have hh := srd_seg (mkAVIBody micro total w h bmp movi mdecl)
      (tagRIFF ++ (u32le 0 ++ tagAVIsp)) (tagLIST ++ u32le 192)
      (tagHdrl ++ (hdrlPayload micro total w h bmp ++ (tagLIST ++ (u32le mdecl ++
        (tagMovi ++ movi))))) 12 8
      (by simp [mkAVIBody]) (by simp [tagRIFF, tagAVIsp]) (by simp [tagLIST])
    rwa [show (12 : Nat) + 8 = 20 by omega] at hh
  have h2 : srd (mkAVIBody micro total w h bmp movi mdecl) ⟨20, false⟩ 4 =
      (some tagHdrl, ⟨24, false⟩) := by
    have hh := srd_seg (mkAVIBody micro total w h bmp movi mdecl)
      (tagRIFF ++ (u32le 0 ++ (tagAVIsp ++ (tagLIST ++ u32le 192)))) tagHdrl
      (hdrlPayload micro total w h bmp ++ (tagLIST ++ (u32le mdecl ++ (tagMovi ++ movi)))) 20 4
      (by simp [mkAVIBody]) (by simp [tagRIFF, tagAVIsp, tagLIST]) (by simp [tagHdrl])
    rwa [show (20 : Nat) + 4 = 24 by omega] at hh
  have h3 : srd (mkAVIBody micro total w h bmp movi mdecl) ⟨212, false⟩ 8 =
      (some (tagLIST ++ u32le mdecl), ⟨220, false⟩) := by
    have hh := srd_seg (mkAVIBody micro total w h bmp movi mdecl)
      (tagRIFF ++ (u32le 0 ++ (tagAVIsp ++ (tagLIST ++ (u32le 192 ++ (tagHdrl ++
        hdrlPayload micro total w h bmp)))))) (tagLIST ++ u32le mdecl)
      (tagMovi ++ movi) 212 8
      (by simp [mkAVIBody])
      (by simp [tagRIFF, tagAVIsp, tagLIST, tagHdrl, hbmp]) (by simp [tagLIST])
    rwa [show (212 : Nat) + 8 = 220 by omega] at hh
  have h4 : srd (mkAVIBody micro total w h bmp movi mdecl) ⟨220, false⟩ 4 =
      (some tagMovi, ⟨224, false⟩) := by
    have hh := srd_seg (mkAVIBody micro total w h bmp movi mdecl)
      (tagRIFF ++ (u32le 0 ++ (tagAVIsp ++ (tagLIST ++ (u32le 192 ++ (tagHdrl ++
        (hdrlPayload micro total w h bmp ++ (tagLIST ++ u32le mdecl)))))))) tagMovi
      (movi) 220 4
      (by simp [mkAVIBody])
      (by simp [tagRIFF, tagAVIsp, tagLIST, tagHdrl, hbmp]) (by simp [tagMovi])
    rwa [show (220 : Nat) + 4 = 224 by omega] at hh
  rw [chunkLoop_step_hdrl (mkAVIBody micro total w h bmp movi mdecl) (f + 1) 12 20 24 192
    false initialState h1 h2]
  rw [show u32sub 192 4 = 188 from by decide]
  rw [show parseHeaderList (mkAVIBody micro total w h bmp movi mdecl) ⟨24, false⟩ 188
        initialState =
      headerLoop (mkAVIBody micro total w h bmp movi mdecl)
        ((mkAVIBody micro total w h bmp movi mdecl).length + 1) ⟨24, false⟩ 188 0
        initialState from rfl]
  rw [headerLoop_hdrl (mkAVIBody micro total w h bmp movi mdecl)
    (tagRIFF ++ (u32le 0 ++ (tagAVIsp ++ (tagLIST ++ (u32le 192 ++ tagHdrl)))))
    (tagLIST ++ (u32le mdecl ++ (tagMovi ++ movi))) bmp micro total w h 24
    ((mkAVIBody micro total w h bmp movi mdecl).length + 1) initialState
    (by simp [mkAVIBody]) (by simp [tagRIFF, tagAVIsp, tagLIST, tagHdrl]) hbmp
    (by rw [hlen]; omega) (by rw [hlen]; omega)]
  rw [show (24 : Nat) + 188 = 212 by omega]
  dsimp only
  rw [chunkLoop_step_movi (mkAVIBody micro total w h bmp movi mdecl) f 212 220 224 mdecl
    true _ h3 h4]
  rfl

/-- `parseAVIChunks` over a two-stream file: the movie payload is handed to
`indexFrames` at offset 348 after both stream lists have been parsed. -/
theorem chunkLoop_mkAVI2 (micro total w h : Nat) (bmp1 bmp2 : List Nat) (cs : List MChunk)
    (fuel : Nat) (hbmp1 : bmp1.length = 40) (hbmp2 : bmp2.length = 40) (hfuel : 2 ≤ fuel) :
    chunkLoop (mkAVI2 micro total w h bmp1 bmp2 cs) fuel ⟨12, false⟩ false initialState =
      (true,
       (indexFrames (mkAVI2 micro total w h bmp1 bmp2 cs) ⟨348, false⟩
          (u32sub (4 + (serializeChunks cs).length) 4)
          { initialState with
              mainHeader := parseMainHeader (avihBytes micro total w h)
              fccType := tagVids
              bitmapHeader := parseBitmapHeader bmp2 }).1,
       (indexFrames (mkAVI2 micro total w h bmp1 bmp2 cs) ⟨348, false⟩
          (u32sub (4 + (serializeChunks cs).length) 4)
          { initialState with
              mainHeader := parseMainHeader (avihBytes micro total w h)
              fccType := tagVids
              bitmapHeader := parseBitmapHeader bmp2 }).2) := by
  obtain ⟨f, rfl⟩ : ∃ f, fuel = f + 1 + 1 := ⟨fuel - 2, by omega⟩
  have hlen : (mkAVI2 micro total w h bmp1 bmp2 cs).length =
      348 + (serializeChunks cs).length := by
    simp [mkAVI2, tagRIFF, tagAVIsp, tagLIST, tagHdrl, tagMovi, hdrlPayload2, tagAvih,
      tagStrl, tagStrh, tagStrf, hbmp1, hbmp2]
    omega
  have h1 : srd (mkAVI2 micro total w h bmp1 bmp2 cs) ⟨12, false⟩ 8 =
      (some (tagLIST ++ u32le 316), ⟨20, false⟩) := by
    have hh := srd_seg (mkAVI2 micro total w h bmp1 bmp2 cs)
      (tagRIFF ++ (u32le 0 ++ tagAVIsp)) (tagLIST ++ u32le 316)
      (tagHdrl ++ (hdrlPayload2 micro total w h bmp1 bmp2 ++ (tagLIST ++
        (u32le (4 + (serializeChunks cs).length) ++ (tagMovi ++ serializeChunks cs))))) 12 8
      (by simp [mkAVI2]) (by simp [tagRIFF, tagAVIsp]) (by simp [tagLIST])
    rwa [show (12 : Nat) + 8 = 20 by omega] at hh
  have h2 : srd (mkAVI2 micro total w h bmp1 bmp2 cs) ⟨20, false⟩ 4 =
      (some tagHdrl, ⟨24, false⟩) := by
    have hh := srd_seg (mkAVI2 micro total w h bmp1 bmp2 cs)
      (tagRIFF ++ (u32le 0 ++ (tagAVIsp ++ (tagLIST ++ u32le 316)))) tagHdrl
      (hdrlPayload2 micro total w h bmp1 bmp2 ++ (tagLIST ++
        (u32le (4 + (serializeChunks cs).length) ++ (tagMovi ++ serializeChunks cs)))) 20 4
      (by simp [mkAVI2]) (by simp [tagRIFF, tagAVIsp, tagLIST]) (by simp [tagHdrl])
    rwa [show (20 : Nat) + 4 = 24 by omega] at hh
  have h3 : srd (mkAVI2 micro total w h bmp1 bmp2 cs) ⟨336, false⟩ 8 =
      (some (tagLIST ++ u32le (4 + (serializeChunks cs).length)), ⟨344, false⟩) := by
    have hh := srd_seg (mkAVI2 micro total w h bmp1 bmp2 cs)
      (tagRIFF ++ (u32le 0 ++ (tagAVIsp ++ (tagLIST ++ (u32le 316 ++ (tagHdrl ++
        hdrlPayload2 micro total w h bmp1 bmp2))))))
      (tagLIST ++ u32le (4 + (serializeChunks cs).length))
      (tagMovi ++ serializeChunks cs) 336 8
      (by simp [mkAVI2])
      (by simp [tagRIFF, tagAVIsp, tagLIST, tagHdrl, hdrlPayload2, tagAvih, tagStrl,
        tagStrh, tagStrf, hbmp1, hbmp2]) (by simp [tagLIST])
    rwa [show (336 : Nat) + 8 = 344 by omega] at hh
  have h4 : srd (mkAVI2 micro total w h bmp1 bmp2 cs) ⟨344, false⟩ 4 =
      (some tagMovi, ⟨348, false⟩) := by
    have hh := srd_seg (mkAVI2 micro total w h bmp1 bmp2 cs)
      (tagRIFF ++ (u32le 0 ++ (tagAVIsp ++ (tagLIST ++ (u32le 316 ++ (tagHdrl ++
        (hdrlPayload2 micro total w h bmp1 bmp2 ++ (tagLIST ++
          u32le (4 + (serializeChunks cs).length))))))))) tagMovi
      (serializeChunks cs) 344 4
      (by simp [mkAVI2])
      (by simp [tagRIFF, tagAVIsp, tagLIST, tagHdrl, hdrlPayload2, tagAvih, tagStrl,
        tagStrh, tagStrf, hbmp1, hbmp2]) (by simp [tagMovi])
    rwa [show (344 : Nat) + 4 = 348 by omega] at hh
  rw [chunkLoop_step_hdrl (mkAVI2 micro total w h bmp1 bmp2 cs) (f + 1) 12 20 24 316
    false initialState h1 h2]
  rw [show u32sub 316 4 = 312 from by decide]
  rw [show parseHeaderList (mkAVI2 micro total w h bmp1 bmp2 cs) ⟨24, false⟩ 312
        initialState =
      headerLoop (mkAVI2 micro total w h bmp1 bmp2 cs)
        ((mkAVI2 micro total w h bmp1 bmp2 cs).length + 1) ⟨24, false⟩ 312 0
        initialState from rfl]
  rw [headerLoop_hdrl2 (mkAVI2 micro total w h bmp1 bmp2 cs)
    (tagRIFF ++ (u32le 0 ++ (tagAVIsp ++ (tagLIST ++ (u32le 316 ++ tagHdrl)))))
    (tagLIST ++ (u32le (4 + (serializeChunks cs).length) ++ (tagMovi ++ serializeChunks cs)))
    bmp1 bmp2 micro total w h 24
    ((mkAVI2 micro total w h bmp1 bmp2 cs).length + 1) initialState
    (by simp [mkAVI2]) (by simp [tagRIFF, tagAVIsp, tagLIST, tagHdrl]) hbmp1 hbmp2
    (by rw [hlen]; omega) (by rw [hlen]; omega)]
  rw [show (24 : Nat) + 312 = 336 by omega]
  dsimp only
  rw [chunkLoop_step_movi (mkAVI2 micro total w h bmp1 bmp2 cs) f 336 344 348
    (4 + (serializeChunks cs).length) true _ h3 h4]

/-! ## The indexer over a serialized chunk sequence -/

/-- Running the `indexFrames` loop over the serialization of `cs` consumes it
exactly and records precisely the video-tagged chunks (offsets and sizes),
using one fuel unit per chunk. -/
theorem indexLoop_chunks (d post : List Nat) (cs : List MChunk) (pre : List Nat)
    (bound fuel : Nat) (st : PSt)
    (hd : d = pre ++ (serializeChunks cs ++ post))
    (hwf : ∀ c ∈ cs, WFChunk c)
    (hb : pre.length + (serializeChunks cs).length ≤ bound)
    (hfuel : cs.length ≤ fuel) :
    indexLoop d fuel ⟨pre.length, false⟩ bound st =
      indexLoop d (fuel - cs.length) ⟨pre.length + (serializeChunks cs).length, false⟩ bound
        { st with frameOffsets := st.frameOffsets ++ videoOffsets pre.length cs
                  frameSizes := st.frameSizes ++ videoSizes cs } := by
  induction cs generalizing pre fuel st with
  | nil =>
    simp only [serializeChunks_nil, List.length_nil, Nat.sub_zero, List.length_nil,
      Nat.add_zero, videoOffsets, videoSizes, List.append_nil]
  | cons c cs ih =>
    obtain ⟨f, rfl⟩ : ∃ f, fuel = f + 1 := ⟨fuel - 1, by simp at hfuel; omega⟩
    obtain ⟨htag, hplen⟩ := hwf c (List.mem_cons_self c cs)
    have hsl := serializeChunk_length c htag
    have hscons := serializeChunks_cons c cs
    have hslen : (serializeChunks (c :: cs)).length =
        8 + paddedSize c.payload.length + (serializeChunks cs).length := by
      rw [hscons, List.length_append, hsl]
    have h8 : srd d ⟨pre.length, false⟩ 8 =
        (some (c.tag ++ u32le c.payload.length), ⟨pre.length + 8, false⟩) :=
      srd_seg d pre (c.tag ++ u32le c.payload.length)
        ((c.payload ++ (if c.payload.length % 2 = 1 then [0] else [])) ++
          (serializeChunks cs ++ post)) pre.length 8
        (by rw [hd, hscons]; simp [serializeChunk]) rfl (by simp [htag])
    have hlt : pre.length < bound := by
      have := hslen
      omega
    rw [indexLoop_step d f bound pre.length st (c.tag ++ u32le c.payload.length) h8 hlt]
    have etake : (c.tag ++ u32le c.payload.length).take 4 = c.tag := List.take_left' htag
    have esize : u32at (c.tag ++ u32le c.payload.length) 4 = c.payload.length := by
      have hx := u32at_tag4 c.tag (u32le c.payload.length) 0 htag
      norm_num at hx
      rw [hx, u32at_u32le, Nat.mod_eq_of_lt hplen]
    rw [etake, esize]
    have hpre' : (pre ++ serializeChunk c).length =
        pre.length + 8 + paddedSize c.payload.length := by
      rw [List.length_append, hsl]
      omega
    have ihh := ih (pre ++ serializeChunk c) f
      (if c.tag = tag00dc ∨ c.tag = tag00db then
        { st with frameOffsets := st.frameOffsets ++ [pre.length + 8]
                  frameSizes := st.frameSizes ++ [c.payload.length] }
       else st)
      (by rw [hd, hscons]; simp [List.append_assoc])
      (fun c' hc' => hwf c' (List.mem_cons_of_mem c hc'))
      (by rw [hpre']; omega)
      (by simp at hfuel; omega)
    rw [hpre'] at ihh
    rw [ihh]
    rw [show f + 1 - (c :: cs).length = f - cs.length from by simp]
    rw [show pre.length + (serializeChunks (c :: cs)).length =
        pre.length + 8 + paddedSize c.payload.length + (serializeChunks cs).length from by
      rw [hslen]; omega]
    congr 1
    by_cases hv : c.tag = tag00dc ∨ c.tag = tag00db
    · simp [hv, videoOffsets, videoSizes]
    · simp [hv, videoOffsets, videoSizes]

/-- `indexFrames` over a movie payload that is exactly a serialized chunk
sequence: consumes it fully and records exactly the video chunks. -/
theorem indexFrames_serialized (d pre : List Nat) (cs : List MChunk) (st : PSt) (p : Nat)
    (hd : d = pre ++ serializeChunks cs) (hp : pre.length = p)
    (hwf : ∀ c ∈ cs, WFChunk c) :
    indexFrames d ⟨p, false⟩ (serializeChunks cs).length st =
      (⟨p + (serializeChunks cs).length, false⟩,
       { st with frameOffsets := st.frameOffsets ++ videoOffsets p cs
                 frameSizes := st.frameSizes ++ videoSizes cs }) := by
  subst hp
  have hdl : d.length = pre.length + (serializeChunks cs).length := by
    rw [hd, List.length_append]
  have hfuel : cs.length ≤ d.length + 1 := by
    have := length_le_serializeChunks cs
    omega
  unfold indexFrames
  rw [show (⟨pre.length, false⟩ : Strm).pos = pre.length from rfl]
  rw [indexLoop_chunks d [] cs pre (pre.length + (serializeChunks cs).length) (d.length + 1)
    st (by rw [hd]; simp) hwf (le_refl _) hfuel]
  exact indexLoop_exit d _ _ _ _ (by omega)

/-- `indexFrames` over a movie payload that ends in a chunk header whose
declared size `k` reaches past the end of the file: the loop exits without any
error after the final over-long skip, and the index holds exactly the video
chunks that precede the truncation point. -/
theorem indexFrames_serialized_trunc (d pre : List Nat) (cs : List MChunk)
    (tailTag : List Nat) (k : Nat) (st : PSt) (p : Nat)
    (hd : d = pre ++ (serializeChunks cs ++ (tailTag ++ u32le k)))
    (hp : pre.length = p)
    (hwf : ∀ c ∈ cs, WFChunk c) (htt : tailTag.length = 4)
    (hnv : ¬(tailTag = tag00dc ∨ tailTag = tag00db)) (hk : k < 4294967296) :
    indexFrames d ⟨p, false⟩ ((serializeChunks cs).length + 8 + paddedSize k) st =
      (⟨p + ((serializeChunks cs).length + 8 + paddedSize k), false⟩,
       { st with frameOffsets := st.frameOffsets ++ videoOffsets p cs
                 frameSizes := st.frameSizes ++ videoSizes cs }) := by
  subst hp
  have hdl : d.length = pre.length + (serializeChunks cs).length + 8 := by
    rw [hd]
    simp only [List.length_append, u32le_length, htt]
    omega
  have hfuel : cs.length ≤ d.length + 1 := by
    have := length_le_serializeChunks cs
    omega
  unfold indexFrames
  rw [show (⟨pre.length, false⟩ : Strm).pos = pre.length from rfl]
  rw [indexLoop_chunks d (tailTag ++ u32le k) cs pre
    (pre.length + ((serializeChunks cs).length + 8 + paddedSize k)) (d.length + 1) st
    (by rw [hd]) hwf (by have hps : 0 ≤ paddedSize k := Nat.zero_le _; omega) hfuel]
  obtain ⟨f, hf⟩ : ∃ f, d.length + 1 - cs.length = f + 1 := by
    have := length_le_serializeChunks cs
    exact ⟨d.length - cs.length, by omega⟩
  rw [hf]
  have h8 : srd d ⟨pre.length + (serializeChunks cs).length, false⟩ 8 =
      (some (tailTag ++ u32le k),
       ⟨pre.length + (serializeChunks cs).length + 8, false⟩) :=
    srd_seg d (pre ++ serializeChunks cs) (tailTag ++ u32le k) [] _ 8
      (by rw [hd]; simp) (by simp) (by simp [htt])
  have hlt : pre.length + (serializeChunks cs).length <
      pre.length + ((serializeChunks cs).length + 8 + paddedSize k) := by
    have hps : 0 ≤ paddedSize k := Nat.zero_le _
    omega
  rw [indexLoop_step d f _ _ _ (tailTag ++ u32le k) h8 hlt]
  have etake : (tailTag ++ u32le k).take 4 = tailTag := List.take_left' htt
  have esize : u32at (tailTag ++ u32le k) 4 = k := by
    have hx := u32at_tag4 tailTag (u32le k) 0 htt
    norm_num at hx
    rw [hx, u32at_u32le, Nat.mod_eq_of_lt hk]
  rw [etake, esize, if_neg hnv]
  rw [show pre.length + (serializeChunks cs).length + 8 + paddedSize k =
      pre.length + ((serializeChunks cs).length + 8 + paddedSize k) from by omega]
  exact indexLoop_exit d f _ _ _ (by omega)

/-! ## Full characterization of `loadAVI` on constructed inputs -/

/-- `loadAVI` on a well-formed single-stream 24-bit file: the loaded container
reports the header-declared frame count, the fps derived from the declared
frame duration, and a frame index holding exactly the video chunks physically
present in the movie data. -/
theorem loadAVI_mkAVI (micro total w h : Nat) (cs : List MChunk)
    (hmicro : micro < 4294967296) (htotal : total < 4294967296)
    (hw : w < 4294967296) (hh : h < 4294967296)
    (hwf : ∀ c ∈ cs, WFChunk c)
    (hL : 4 + (serializeChunks cs).length < 4294967296)
    (hvid : 0 < countVideo cs) :
    loadAVI (mkAVI micro total w h cs) =
      some { frameWidth := w
             frameHeight := h
             fps := if 0 < micro then 1000000 / micro else 30
             totalFrames := total
             bitsPerPixel := 24
             bytesPerPixel := 3
             isTopDown := false
             palette := []
             frameOffsets := videoOffsets 224 cs
             frameSizes := videoSizes cs } := by
  have hdl : (mkAVI micro total w h cs).length = 224 + (serializeChunks cs).length := by
    rw [show mkAVI micro total w h cs =
      mkAVIBody micro total w h (bmpBytes 16 16 24 0) (serializeChunks cs)
        (4 + (serializeChunks cs).length) from rfl]
    rw [mkAVIBody_length micro total w h _ _ _ (by simp)]
  have h0 : srd (mkAVI micro total w h cs) ⟨0, false⟩ 12 =
      (some (tagRIFF ++ (u32le 0 ++ tagAVIsp)), ⟨12, false⟩) := by
    have hh0 := srd_seg (mkAVI micro total w h cs) [] (tagRIFF ++ (u32le 0 ++ tagAVIsp))
      (tagLIST ++ (u32le 192 ++ (tagHdrl ++ (hdrlPayload micro total w h (bmpBytes 16 16 24 0) ++
        (tagLIST ++ (u32le (4 + (serializeChunks cs).length) ++ (tagMovi ++ serializeChunks cs)))))))
      0 12 (by simp [mkAVI, mkAVIBody]) rfl (by simp [tagRIFF, tagAVIsp])
    simpa using hh0
  have hne : (videoOffsets 224 cs).isEmpty = false := by
    cases hvo : videoOffsets 224 cs with
    | nil =>
      exfalso
      have hl := videoOffsets_length 224 cs
      rw [hvo] at hl
      simp at hl
      omega
    | cons a l => rfl
  have hmain : parseMainHeader (avihBytes micro total w h) = ⟨micro, total, w, h⟩ := by
    rw [parseMainHeader_avihBytes]
    congr 1 <;> omega
  have hbmpv : parseBitmapHeader (bmpBytes 16 16 24 0) = ⟨16, 16, 24, 0⟩ := by decide
  have hparse : parseAVIChunks (mkAVI micro total w h cs) ⟨12, false⟩ initialState =
      (true, ⟨224 + (serializeChunks cs).length, false⟩,
       { headerState micro total w h (bmpBytes 16 16 24 0) with
           frameOffsets := videoOffsets 224 cs
           frameSizes := videoSizes cs }) := by
    unfold parseAVIChunks
    rw [show mkAVI micro total w h cs =
      mkAVIBody micro total w h (bmpBytes 16 16 24 0) (serializeChunks cs)
        (4 + (serializeChunks cs).length) from rfl]
    rw [chunkLoop_mkAVIBody micro total w h (4 + (serializeChunks cs).length)
      (bmpBytes 16 16 24 0) (serializeChunks cs) _ (by simp)
      (by rw [mkAVIBody_length micro total w h _ _ _ (by simp)]; omega)]
    rw [u32sub_exact (4 + (serializeChunks cs).length) 4 (by omega) hL,
      show 4 + (serializeChunks cs).length - 4 = (serializeChunks cs).length from by omega]
    rw [indexFrames_serialized (mkAVIBody micro total w h (bmpBytes 16 16 24 0)
        (serializeChunks cs) (4 + (serializeChunks cs).length))
      (tagRIFF ++ (u32le 0 ++ (tagAVIsp ++ (tagLIST ++ (u32le 192 ++ (tagHdrl ++
        (hdrlPayload micro total w h (bmpBytes 16 16 24 0) ++ (tagLIST ++
          (u32le (4 + (serializeChunks cs).length) ++ tagMovi)))))))))
      cs _ 224
      (by simp [mkAVIBody])
      (by simp [tagRIFF, tagAVIsp, tagLIST, tagHdrl, tagMovi])
      hwf]
    simp [headerState, initialState, hne]
  unfold loadAVI
  rw [h0]
  dsimp only
  rw [if_pos (⟨by decide, by decide⟩ :
    (tagRIFF ++ (u32le 0 ++ tagAVIsp)).take 4 = tagRIFF ∧
      ((tagRIFF ++ (u32le 0 ++ tagAVIsp)).drop 8).take 4 = tagAVIsp)]
  rw [hparse]
  simp only [headerState, initialState, hne, Bool.and_self, Bool.not_false, Bool.and_true,
    if_true, hmain, hbmpv]
  rw [show determinePixelFormat ⟨16, 16, 24, 0⟩ = some (24, 3) from by decide]
  simp only [orientFromHeight]
  norm_num

@[simp] theorem hdrlPayload2_length (micro total w h : Nat) (bmp1 bmp2 : List Nat) :
    (hdrlPayload2 micro total w h bmp1 bmp2).length = 232 + bmp1.length + bmp2.length := by
  simp [hdrlPayload2, tagAvih, tagLIST, tagStrl, tagStrh, tagStrf]
  omega

/-- `loadAVI` on a file whose movie data ends in a chunk header claiming `k`
bytes that are not there: the load nevertheless succeeds, silently returning
exactly the frames indexed before the truncation point. -/
theorem loadAVI_mkAVITrunc (micro total w h k : Nat) (cs : List MChunk) (tailTag : List Nat)
    (hmicro : micro < 4294967296) (htotal : total < 4294967296)
    (hw : w < 4294967296) (hh : h < 4294967296)
    (hwf : ∀ c ∈ cs, WFChunk c)
    (htt : tailTag.length = 4)
    (hnv : ¬(tailTag = tag00dc ∨ tailTag = tag00db))
    (hk : k < 4294967296)
    (hL : 4 + (serializeChunks cs).length + 8 + paddedSize k < 4294967296)
    (hvid : 0 < countVideo cs) :
    loadAVI (mkAVITrunc micro total w h cs tailTag k) =
      some { frameWidth := w
             frameHeight := h
             fps := if 0 < micro then 1000000 / micro else 30
             totalFrames := total
             bitsPerPixel := 24
             bytesPerPixel := 3
             isTopDown := false
             palette := []
             frameOffsets := videoOffsets 224 cs
             frameSizes := videoSizes cs } := by
  have hmovl : (serializeChunks cs ++ (tailTag ++ u32le k)).length =
      (serializeChunks cs).length + 8 := by
    simp [htt]
  have h0 : srd (mkAVITrunc micro total w h cs tailTag k) ⟨0, false⟩ 12 =
      (some (tagRIFF ++ (u32le 0 ++ tagAVIsp)), ⟨12, false⟩) := by
    have hh0 := srd_seg (mkAVITrunc micro total w h cs tailTag k) []
      (tagRIFF ++ (u32le 0 ++ tagAVIsp))
      (tagLIST ++ (u32le 192 ++ (tagHdrl ++ (hdrlPayload micro total w h (bmpBytes 16 16 24 0) ++
        (tagLIST ++ (u32le (4 + (serializeChunks cs).length + 8 + paddedSize k) ++
          (tagMovi ++ (serializeChunks cs ++ (tailTag ++ u32le k)))))))))
      0 12 (by simp [mkAVITrunc, mkAVIBody]) rfl (by simp [tagRIFF, tagAVIsp])
    simpa using hh0
  have hne : (videoOffsets 224 cs).isEmpty = false := by
    cases hvo : videoOffsets 224 cs with
    | nil =>
      exfalso
      have hl := videoOffsets_length 224 cs
      rw [hvo] at hl
      simp at hl
      omega
    | cons a l => rfl
  have hmain : parseMainHeader (avihBytes micro total w h) = ⟨micro, total, w, h⟩ := by
    rw [parseMainHeader_avihBytes]
    congr 1 <;> omega
  have hbmpv : parseBitmapHeader (bmpBytes 16 16 24 0) = ⟨16, 16, 24, 0⟩ := by decide
  have hparse : parseAVIChunks (mkAVITrunc micro total w h cs tailTag k) ⟨12, false⟩
      initialState =
      (true, ⟨224 + ((serializeChunks cs).length + 8 + paddedSize k), false⟩,
       { headerState micro total w h (bmpBytes 16 16 24 0) with
           frameOffsets := videoOffsets 224 cs
           frameSizes := videoSizes cs }) := by
    unfold parseAVIChunks
    rw [show mkAVITrunc micro total w h cs tailTag k =
      mkAVIBody micro total w h (bmpBytes 16 16 24 0)
        (serializeChunks cs ++ (tailTag ++ u32le k))
        (4 + (serializeChunks cs).length + 8 + paddedSize k) from by
      simp [mkAVITrunc]]
    rw [chunkLoop_mkAVIBody micro total w h
      (4 + (serializeChunks cs).length + 8 + paddedSize k)
      (bmpBytes 16 16 24 0) (serializeChunks cs ++ (tailTag ++ u32le k)) _ (by simp)
      (by rw [mkAVIBody_length micro total w h _ _ _ (by simp)]; omega)]
    rw [u32sub_exact (4 + (serializeChunks cs).length + 8 + paddedSize k) 4 (by omega) hL,
      show 4 + (serializeChunks cs).length + 8 + paddedSize k - 4 =
        (serializeChunks cs).length + 8 + paddedSize k from by omega]
    rw [indexFrames_serialized_trunc (mkAVIBody micro total w h (bmpBytes 16 16 24 0)
        (serializeChunks cs ++ (tailTag ++ u32le k))
        (4 + (serializeChunks cs).length + 8 + paddedSize k))
      (tagRIFF ++ (u32le 0 ++ (tagAVIsp ++ (tagLIST ++ (u32le 192 ++ (tagHdrl ++
        (hdrlPayload micro total w h (bmpBytes 16 16 24 0) ++ (tagLIST ++
          (u32le (4 + (serializeChunks cs).length + 8 + paddedSize k) ++ tagMovi)))))))))
      cs tailTag k _ 224
      (by simp [mkAVIBody])
      (by simp [tagRIFF, tagAVIsp, tagLIST, tagHdrl, tagMovi])
      hwf htt hnv hk]
    simp [headerState, initialState, hne]
  unfold loadAVI
  rw [h0]
  dsimp only
  rw [if_pos (⟨by decide, by decide⟩ :
    (tagRIFF ++ (u32le 0 ++ tagAVIsp)).take 4 = tagRIFF ∧
      ((tagRIFF ++ (u32le 0 ++ tagAVIsp)).drop 8).take 4 = tagAVIsp)]
  rw [hparse]
  simp only [headerState, initialState, hne, Bool.and_self, Bool.not_false, Bool.and_true,
    if_true, hmain, hbmpv]
  rw [show determinePixelFormat ⟨16, 16, 24, 0⟩ = some (24, 3) from by decide]
  simp only [orientFromHeight]
  norm_num

/-- `loadAVI` on a well-formed file declaring two video streams: the captured
format metadata comes entirely from the second stream's format chunk (here a
32-bit header), regardless of the 40 bytes `b1` of the first stream's format
chunk. -/
theorem loadAVI_mkAVI2 (micro total w h : Nat) (b1 : List Nat) (cs : List MChunk)
    (hb1 : b1.length = 40)
    (hmicro : micro < 4294967296) (htotal : total < 4294967296)
    (hw : w < 4294967296) (hh : h < 4294967296)
    (hwf : ∀ c ∈ cs, WFChunk c)
    (hL : 4 + (serializeChunks cs).length < 4294967296)
    (hvid : 0 < countVideo cs) :
    loadAVI (mkAVI2 micro total w h b1 (bmpBytes 16 16 32 0) cs) =
      some { frameWidth := w
             frameHeight := h
             fps := if 0 < micro then 1000000 / micro else 30
             totalFrames := total
             bitsPerPixel := 32
             bytesPerPixel := 4
             isTopDown := false
             palette := []
             frameOffsets := videoOffsets 348 cs
             frameSizes := videoSizes cs } := by
  have h0 : srd (mkAVI2 micro total w h b1 (bmpBytes 16 16 32 0) cs) ⟨0, false⟩ 12 =
      (some (tagRIFF ++ (u32le 0 ++ tagAVIsp)), ⟨12, false⟩) := by
    have hh0 := srd_seg (mkAVI2 micro total w h b1 (bmpBytes 16 16 32 0) cs) []
      (tagRIFF ++ (u32le 0 ++ tagAVIsp))
      (tagLIST ++ (u32le 316 ++ (tagHdrl ++
        (hdrlPayload2 micro total w h b1 (bmpBytes 16 16 32 0) ++
        (tagLIST ++ (u32le (4 + (serializeChunks cs).length) ++
          (tagMovi ++ serializeChunks cs)))))))
      0 12 (by simp [mkAVI2]) rfl (by simp [tagRIFF, tagAVIsp])
    simpa using hh0
  have hne : (videoOffsets 348 cs).isEmpty = false := by
    cases hvo : videoOffsets 348 cs with
    | nil =>
      exfalso
      have hl := videoOffsets_length 348 cs
      rw [hvo] at hl
      simp at hl
      omega
    | cons a l => rfl
  have hmain : parseMainHeader (avihBytes micro total w h) = ⟨micro, total, w, h⟩ := by
    rw [parseMainHeader_avihBytes]
    congr 1 <;> omega
  have hbmpv : parseBitmapHeader (bmpBytes 16 16 32 0) = ⟨16, 16, 32, 0⟩ := by decide
  have hparse : parseAVIChunks (mkAVI2 micro total w h b1 (bmpBytes 16 16 32 0) cs)
      ⟨12, false⟩ initialState =
      (true, ⟨348 + (serializeChunks cs).length, false⟩,
       { initialState with
           mainHeader := parseMainHeader (avihBytes micro total w h)
           fccType := tagVids
           bitmapHeader := parseBitmapHeader (bmpBytes 16 16 32 0)
           frameOffsets := videoOffsets 348 cs
           frameSizes := videoSizes cs }) := by
    have hdl2 : (mkAVI2 micro total w h b1 (bmpBytes 16 16 32 0) cs).length =
        348 + (serializeChunks cs).length := by
      simp [mkAVI2, tagRIFF, tagAVIsp, tagLIST, tagHdrl, tagMovi, hb1]
      omega
    unfold parseAVIChunks
    rw [chunkLoop_mkAVI2 micro total w h b1 (bmpBytes 16 16 32 0) cs _ hb1 (by simp)
      (by rw [hdl2]; omega)]
    rw [u32sub_exact (4 + (serializeChunks cs).length) 4 (by omega) hL,
      show 4 + (serializeChunks cs).length - 4 = (serializeChunks cs).length from by omega]
    rw [indexFrames_serialized (mkAVI2 micro total w h b1 (bmpBytes 16 16 32 0) cs)
      (tagRIFF ++ (u32le 0 ++ (tagAVIsp ++ (tagLIST ++ (u32le 316 ++ (tagHdrl ++
        (hdrlPayload2 micro total w h b1 (bmpBytes 16 16 32 0) ++ (tagLIST ++
          (u32le (4 + (serializeChunks cs).length) ++ tagMovi)))))))))
      cs _ 348
      (by simp [mkAVI2])
      (by simp [tagRIFF, tagAVIsp, tagLIST, tagHdrl, tagMovi, hb1])
      hwf]
    simp [initialState, hne]
  unfold loadAVI
  rw [h0]
  dsimp only
  rw [if_pos (⟨by decide, by decide⟩ :
    (tagRIFF ++ (u32le 0 ++ tagAVIsp)).take 4 = tagRIFF ∧
      ((tagRIFF ++ (u32le 0 ++ tagAVIsp)).drop 8).take 4 = tagAVIsp)]
  rw [hparse]
  simp only [initialState, hne, Bool.and_self, Bool.not_false, Bool.and_true,
    if_true, hmain, hbmpv]
  rw [show determinePixelFormat ⟨16, 16, 32, 0⟩ = some (32, 4) from by decide]
  simp only [orientFromHeight]
  norm_num

/-! ## Facts about the pixel converters -/

/-- Reading inside a flattened list of uniform-length rows is reading inside
the addressed row. -/
theorem flatten_getD (rows : List (List Nat)) (L i j : Nat)
    (hL : ∀ r ∈ rows, r.length = L) (hi : i < rows.length) (hj : j < L) :
    rows.flatten.getD (i * L + j) 0 = (rows.getD i []).getD j 0 := by
  induction rows generalizing i with
  | nil => simp at hi
  | cons r rows ih =>
    have hrl : r.length = L := hL r (List.mem_cons_self r rows)
    cases i with
    | zero =>
      simp only [List.flatten_cons, Nat.zero_mul, Nat.zero_add, List.getD_cons_zero]
      rw [List.getD_append r rows.flatten 0 j (by omega)]
    | succ i =>
      simp only [List.flatten_cons, List.getD_cons_succ]
      rw [show (i + 1) * L + j = r.length + (i * L + j) from by rw [hrl]; ring]
      rw [List.getD_append_right r rows.flatten 0 _ (by omega), Nat.add_sub_cancel_left]
      apply ih
      · exact fun r' hr' => hL r' (List.mem_cons_of_mem r hr')
      · simpa using hi

theorem byteAt_flatten (rows : List (List Nat)) (L i j : Nat)
    (hL : ∀ r ∈ rows, r.length = L) (hi : i < rows.length) (hj : j < L) :
    byteAt rows.flatten (i * L + j) = byteAt (rows.getD i []) j := by
  unfold byteAt
  rw [flatten_getD rows L i j hL hi hj]

/-- The `y`-th element of a map over `List.range`. -/
theorem range_map_getD {α : Type} (H y : Nat) (f : Nat → List α) (hy : y < H) :
    ((List.range H).map f).getD y [] = f y := by
  rw [List.getD_eq_getElem?_getD, List.getElem?_map, List.getElem?_range hy]
  rfl

/-- Row `H - 1 - y` of the reversed row list is row `y` of the original. -/
theorem getD_reverse_rows (rows : List (List Nat)) (H y : Nat)
    (hH : rows.length = H) (hy : y < H) :
    rows.reverse.getD (H - 1 - y) [] = rows.getD y [] := by
  rw [List.getD_eq_getElem?_getD, List.getD_eq_getElem?_getD,
    List.getElem?_reverse (by omega : H - 1 - y < rows.length)]
  rw [show rows.length - 1 - (H - 1 - y) = y from by omega]

/-- Bytes equal on a prefix give equal reads below the prefix length. -/
theorem byteAt_eq_of_take_eq (d1 d2 : List Nat) (n i : Nat)
    (h : d1.take n = d2.take n) (hi : i < n) : byteAt d1 i = byteAt d2 i := by
  unfold byteAt
  have h1 : d1[i]? = (d1.take n)[i]? := by rw [List.getElem?_take, if_pos hi]
  have h2 : d2[i]? = (d2.take n)[i]? := by rw [List.getElem?_take, if_pos hi]
  rw [List.getD_eq_getElem?_getD, List.getD_eq_getElem?_getD, h1, h2, h]

/-- A pixel component index stays inside the `height * width * bytesPerPixel`
prefix of the frame payload. -/
theorem pixel_index_lt (srcY x c H W bpp : Nat) (h1 : srcY < H) (h2 : x < W)
    (h3 : c < bpp) : srcY * (W * bpp) + (x * bpp + c) < H * (W * bpp) := by
  have e1 : (x + 1) * bpp = x * bpp + bpp := by ring
  have h4 : (x + 1) * bpp ≤ W * bpp := Nat.mul_le_mul_right bpp h2
  have e2 : (srcY + 1) * (W * bpp) = srcY * (W * bpp) + W * bpp := by ring
  have h5 : (srcY + 1) * (W * bpp) ≤ H * (W * bpp) := Nat.mul_le_mul_right (W * bpp) h1
  omega

/-- Orientation round-trip for the 8-bit indexed converter. -/
theorem convert8_orient (rows : List (List Nat)) (W H : Nat) (pal : List RGBQuad)
    (hH : rows.length = H) (hrow : ∀ r ∈ rows, r.length = W) :
    convert8BitToRGB24 rows.flatten W H true pal =
      convert8BitToRGB24 rows.reverse.flatten W H false pal := by
  unfold convert8BitToRGB24
  apply List.map_congr_left
  intro y hy
  rw [List.mem_range] at hy
  rw [show srcRow true H y = y from rfl, show srcRow false H y = H - 1 - y from rfl]
  have hrev : rows.reverse.getD (H - 1 - y) [] = rows.getD y [] :=
    getD_reverse_rows rows H y hH hy
  apply congrArg List.flatten
  apply List.map_congr_left
  intro x hx
  rw [List.mem_range] at hx
  have e0 : byteAt rows.flatten (y * W + x) =
      byteAt rows.reverse.flatten ((H - 1 - y) * W + x) := by
    rw [show y * W + x = y * W + (x * 1 + 0) from by ring,
      show (H - 1 - y) * W + x = (H - 1 - y) * W + (x * 1 + 0) from by ring]
    rw [show y * W = y * (W * 1) from by ring,
      show (H - 1 - y) * W = (H - 1 - y) * (W * 1) from by ring]
    rw [byteAt_flatten rows (W * 1) y (x * 1 + 0)
        (by simpa using hrow) (by omega) (by omega),
      byteAt_flatten rows.reverse (W * 1) (H - 1 - y) (x * 1 + 0)
        (fun r hr => by simpa using hrow r (List.mem_reverse.mp hr))
        (by rw [List.length_reverse]; omega) (by omega)]
    rw [hrev]
  rw [e0]

/-- Orientation round-trip for the 16-bit converter: decoding top-down
equals decoding the row-reversed data bottom-up. -/
theorem convert16_orient (rows : List (List Nat)) (W H : Nat)
    (hH : rows.length = H) (hrow : ∀ r ∈ rows, r.length = W * 2) :
    convert16BitToRGB565 rows.flatten W H true =
      convert16BitToRGB565 rows.reverse.flatten W H false := by
  unfold convert16BitToRGB565
  apply List.map_congr_left
  intro y hy
  rw [List.mem_range] at hy
  rw [show srcRow true H y = y from rfl, show srcRow false H y = H - 1 - y from rfl]
  have hrev : rows.reverse.getD (H - 1 - y) [] = rows.getD y [] :=
    getD_reverse_rows rows H y hH hy
  apply congrArg List.flatten
  apply List.map_congr_left
  intro x hx
  rw [List.mem_range] at hx
  have hb : ∀ c, c < 2 → byteAt rows.flatten (y * (W * 2) + (x * 2 + c)) =
      byteAt rows.reverse.flatten ((H - 1 - y) * (W * 2) + (x * 2 + c)) := by
    intro c hc
    rw [byteAt_flatten rows (W * 2) y (x * 2 + c) hrow (by omega) (by omega),
      byteAt_flatten rows.reverse (W * 2) (H - 1 - y) (x * 2 + c)
        (fun r hr => hrow r (List.mem_reverse.mp hr))
        (by rw [List.length_reverse]; omega) (by omega)]
    rw [hrev]
  have e0 : byteAt rows.flatten (y * W * 2 + 2 * x) =
      byteAt rows.reverse.flatten ((H - 1 - y) * W * 2 + 2 * x) := by
    have hbb := hb 0 (by omega)
    rw [show y * (W * 2) + (x * 2 + 0) = y * W * 2 + 2 * x from by ring,
      show (H - 1 - y) * (W * 2) + (x * 2 + 0) = (H - 1 - y) * W * 2 + 2 * x from by ring]
      at hbb
    exact hbb
  have e1 : byteAt rows.flatten (y * W * 2 + 2 * x + 1) =
      byteAt rows.reverse.flatten ((H - 1 - y) * W * 2 + 2 * x + 1) := by
    have hbb := hb 1 (by omega)
    rw [show y * (W * 2) + (x * 2 + 1) = y * W * 2 + 2 * x + 1 from by ring,
      show (H - 1 - y) * (W * 2) + (x * 2 + 1) = (H - 1 - y) * W * 2 + 2 * x + 1 from by ring]
      at hbb
    exact hbb
  rw [e0, e1]

/-- Orientation round-trip for the 24-bit converter: decoding top-down
equals decoding the row-reversed data bottom-up. -/
theorem convert24_orient (rows : List (List Nat)) (W H : Nat)
    (hH : rows.length = H) (hrow : ∀ r ∈ rows, r.length = W * 3) :
    convert24BitBGRToRGB rows.flatten W H true =
      convert24BitBGRToRGB rows.reverse.flatten W H false := by
  unfold convert24BitBGRToRGB
  apply List.map_congr_left
  intro y hy
  rw [List.mem_range] at hy
  rw [show srcRow true H y = y from rfl, show srcRow false H y = H - 1 - y from rfl]
  have hrev : rows.reverse.getD (H - 1 - y) [] = rows.getD y [] :=
    getD_reverse_rows rows H y hH hy
  apply congrArg List.flatten
  apply List.map_congr_left
  intro x hx
  rw [List.mem_range] at hx
  have hb : ∀ c, c < 3 → byteAt rows.flatten (y * (W * 3) + (x * 3 + c)) =
      byteAt rows.reverse.flatten ((H - 1 - y) * (W * 3) + (x * 3 + c)) := by
    intro c hc
    rw [byteAt_flatten rows (W * 3) y (x * 3 + c) hrow (by omega) (by omega),
      byteAt_flatten rows.reverse (W * 3) (H - 1 - y) (x * 3 + c)
        (fun r hr => hrow r (List.mem_reverse.mp hr))
        (by rw [List.length_reverse]; omega) (by omega)]
    rw [hrev]
  have e0 : byteAt rows.flatten (y * W * 3 + x * 3 + 2) =
      byteAt rows.reverse.flatten ((H - 1 - y) * W * 3 + x * 3 + 2) := by
    have hbb := hb 2 (by omega)
    rw [show y * (W * 3) + (x * 3 + 2) = y * W * 3 + x * 3 + 2 from by ring,
      show (H - 1 - y) * (W * 3) + (x * 3 + 2) = (H - 1 - y) * W * 3 + x * 3 + 2 from by ring]
      at hbb
    exact hbb
  have e1 : byteAt rows.flatten (y * W * 3 + x * 3 + 1) =
      byteAt rows.reverse.flatten ((H - 1 - y) * W * 3 + x * 3 + 1) := by
    have hbb := hb 1 (by omega)
    rw [show y * (W * 3) + (x * 3 + 1) = y * W * 3 + x * 3 + 1 from by ring,
      show (H - 1 - y) * (W * 3) + (x * 3 + 1) = (H - 1 - y) * W * 3 + x * 3 + 1 from by ring]
      at hbb
    exact hbb
  have e2 : byteAt rows.flatten (y * W * 3 + x * 3) =
      byteAt rows.reverse.flatten ((H - 1 - y) * W * 3 + x * 3) := by
    have hbb := hb 0 (by omega)
    rw [show y * (W * 3) + (x * 3 + 0) = y * W * 3 + x * 3 from by ring,
      show (H - 1 - y) * (W * 3) + (x * 3 + 0) = (H - 1 - y) * W * 3 + x * 3 from by ring]
      at hbb
    exact hbb
  rw [e0, e1, e2]

/-- Orientation round-trip for the 32-bit converter: decoding top-down
equals decoding the row-reversed data bottom-up. -/
theorem convert32_orient (rows : List (List Nat)) (W H : Nat)
    (hH : rows.length = H) (hrow : ∀ r ∈ rows, r.length = W * 4) :
    convert32BitBGRAToRGBA rows.flatten W H true =
      convert32BitBGRAToRGBA rows.reverse.flatten W H false := by
  unfold convert32BitBGRAToRGBA
  apply List.map_congr_left
  intro y hy
  rw [List.mem_range] at hy
  rw [show srcRow true H y = y from rfl, show srcRow false H y = H - 1 - y from rfl]
  have hrev : rows.reverse.getD (H - 1 - y) [] = rows.getD y [] :=
    getD_reverse_rows rows H y hH hy
  apply congrArg List.flatten
  apply List.map_congr_left
  intro x hx
  rw [List.mem_range] at hx
  have hb : ∀ c, c < 4 → byteAt rows.flatten (y * (W * 4) + (x * 4 + c)) =
      byteAt rows.reverse.flatten ((H - 1 - y) * (W * 4) + (x * 4 + c)) := by
    intro c hc
    rw [byteAt_flatten rows (W * 4) y (x * 4 + c) hrow (by omega) (by omega),
      byteAt_flatten rows.reverse (W * 4) (H - 1 - y) (x * 4 + c)
        (fun r hr => hrow r (List.mem_reverse.mp hr))
        (by rw [List.length_reverse]; omega) (by omega)]
    rw [hrev]
  have e0 : byteAt rows.flatten (y * W * 4 + x * 4 + 2) =
      byteAt rows.reverse.flatten ((H - 1 - y) * W * 4 + x * 4 + 2) := by
    have hbb := hb 2 (by omega)
    rw [show y * (W * 4) + (x * 4 + 2) = y * W * 4 + x * 4 + 2 from by ring,
      show (H - 1 - y) * (W * 4) + (x * 4 + 2) = (H - 1 - y) * W * 4 + x * 4 + 2 from by ring]
      at hbb
    exact hbb
  have e1 : byteAt rows.flatten (y * W * 4 + x * 4 + 1) =
      byteAt rows.reverse.flatten ((H - 1 - y) * W * 4 + x * 4 + 1) := by
    have hbb := hb 1 (by omega)
    rw [show y * (W * 4) + (x * 4 + 1) = y * W * 4 + x * 4 + 1 from by ring,
      show (H - 1 - y) * (W * 4) + (x * 4 + 1) = (H - 1 - y) * W * 4 + x * 4 + 1 from by ring]
      at hbb
    exact hbb
  have e2 : byteAt rows.flatten (y * W * 4 + x * 4) =
      byteAt rows.reverse.flatten ((H - 1 - y) * W * 4 + x * 4) := by
    have hbb := hb 0 (by omega)
    rw [show y * (W * 4) + (x * 4 + 0) = y * W * 4 + x * 4 from by ring,
      show (H - 1 - y) * (W * 4) + (x * 4 + 0) = (H - 1 - y) * W * 4 + x * 4 from by ring]
      at hbb
    exact hbb
  have e3 : byteAt rows.flatten (y * W * 4 + x * 4 + 3) =
      byteAt rows.reverse.flatten ((H - 1 - y) * W * 4 + x * 4 + 3) := by
    have hbb := hb 3 (by omega)
    rw [show y * (W * 4) + (x * 4 + 3) = y * W * 4 + x * 4 + 3 from by ring,
      show (H - 1 - y) * (W * 4) + (x * 4 + 3) = (H - 1 - y) * W * 4 + x * 4 + 3 from by ring]
      at hbb
    exact hbb
  rw [e0, e1, e2, e3]

/-- Equality of a byte read below the pixel-data prefix, phrased for the
index shapes the converters use. -/
theorem byteAt_prefix_pixel (d1 d2 : List Nat) (H W bpp srcY x c i : Nat)
    (h : d1.take (H * W * bpp) = d2.take (H * W * bpp))
    (h1 : srcY < H) (h2 : x < W) (h3 : c < bpp)
    (hi : i = srcY * (W * bpp) + (x * bpp + c)) :
    byteAt d1 i = byteAt d2 i := by
  subst hi
  apply byteAt_eq_of_take_eq d1 d2 (H * W * bpp) _ h
  rw [show H * W * bpp = H * (W * bpp) from by ring]
  exact pixel_index_lt srcY x c H W bpp h1 h2 h3

theorem srcRow_lt (td : Bool) (H y : Nat) (hy : y < H) : srcRow td H y < H := by
  unfold srcRow
  split <;> omega

/-! ## Claim theorems -/

/-- C6: for every pixel format, width, height H > 0 and palette, a source
declaring height -H with its H rows stored top-down decodes pixel-for-pixel
identically to a source declaring height +H with the same rows stored in
reverse order; the height sign only selects the row mapping
`topDown ? y : height - 1 - y` and both produce the same top-down buffer. -/
theorem c6_orientation_roundtrip (bits W H : Nat) (pal : List RGBQuad)
    (rows : List (List Nat)) (hH : rows.length = H) (hpos : 0 < H)
    (hrow : ∀ r ∈ rows, r.length = W * ((bits + 7) / 8)) :
    convertAndCopyFrame bits pal rows.flatten W H (orientFromHeight (-(H : Int))).1 =
      convertAndCopyFrame bits pal rows.reverse.flatten W H
        (orientFromHeight (H : Int)).1 := by
  have hneg : (orientFromHeight (-(H : Int))).1 = true := by
    unfold orientFromHeight
    rw [if_pos (by omega : -(H : Int) < 0)]
  have hfls : (orientFromHeight (H : Int)).1 = false := by
    unfold orientFromHeight
    rw [if_neg (by omega : ¬(H : Int) < 0)]
  rw [hneg, hfls]
  unfold convertAndCopyFrame
  by_cases h8 : bits = 8
  · subst h8
    norm_num at hrow
    norm_num
    exact convert8_orient rows W H pal hH hrow
  · by_cases h16 : bits = 16
    · subst h16
      norm_num at hrow
      norm_num
      exact convert16_orient rows W H hH hrow
    · by_cases h24 : bits = 24
      · subst h24
        norm_num at hrow
        norm_num
        exact convert24_orient rows W H hH hrow
      · by_cases h32 : bits = 32
        · subst h32
          norm_num at hrow
          norm_num
          exact convert32_orient rows W H hH hrow
        · rw [if_neg h8, if_neg h16, if_neg h24, if_neg h32,
            if_neg h8, if_neg h16, if_neg h24, if_neg h32]

/-- C6 witness: a concrete 1x2 24-bit frame. -/
theorem c6_witness :
    convertAndCopyFrame 24 [] [[1, 2, 3], [4, 5, 6]].flatten 1 2
        (orientFromHeight (-(2 : Int))).1 =
      convertAndCopyFrame 24 [] [[1, 2, 3], [4, 5, 6]].reverse.flatten 1 2
        (orientFromHeight (2 : Int)).1 :=
  c6_orientation_roundtrip 24 1 2 [] [[1, 2, 3], [4, 5, 6]] (by decide) (by decide)
    (by decide)

/-- C7: literal conversion exactness.  A BGR24 pixel 0x10,0x20,0x30 decodes to
RGB 0x30,0x20,0x10; a BGRA32 pixel 0x10,0x20,0x30,0xFF decodes to RGBA
0x30,0x20,0x10,0xFF with the alpha byte copied unchanged; an RGB565 16-bit
value is copied to the destination unchanged, with no component shuffling. -/
theorem c7_conversion_exactness :
    convert24BitBGRToRGB [16, 32, 48] 1 1 true = [[48, 32, 16]] ∧
    convert32BitBGRAToRGBA [16, 32, 48, 255] 1 1 true = [[48, 32, 16, 255]] ∧
    convert16BitToRGB565 [0, 248] 1 1 true = [[0, 248]] ∧
    (∀ b0 b1 : Nat, convert16BitToRGB565 [b0, b1] 1 1 true = [[b0 % 256, b1 % 256]]) := by
  refine ⟨by decide, by decide, by decide, ?_⟩
  intro b0 b1
  simp [convert16BitToRGB565, srcRow, byteAt, List.range_succ]

/-- C10: every converter reads only the first height * width * bytesPerPixel
bytes of the frame payload, at fixed row strides; two payloads that agree on
that prefix decode to identical output buffers, whatever their lengths or
trailing bytes. -/
theorem c10_prefix_only (bits W H : Nat) (td : Bool) (pal : List RGBQuad)
    (d1 d2 : List Nat)
    (h : d1.take (H * W * ((bits + 7) / 8)) = d2.take (H * W * ((bits + 7) / 8))) :
    convertAndCopyFrame bits pal d1 W H td = convertAndCopyFrame bits pal d2 W H td := by
  unfold convertAndCopyFrame
  by_cases h8 : bits = 8
  · subst h8
    norm_num at h
    norm_num
    unfold convert8BitToRGB24
    apply List.map_congr_left
    intro y hy
    rw [List.mem_range] at hy
    apply congrArg List.flatten
    apply List.map_congr_left
    intro x hx
    rw [List.mem_range] at hx
    have heq : byteAt d1 (srcRow td H y * W + x) = byteAt d2 (srcRow td H y * W + x) :=
      byteAt_prefix_pixel d1 d2 H W 1 (srcRow td H y) x 0 _
        (by rw [show H * W * 1 = H * W from by ring]; exact h)
        (srcRow_lt td H y hy) hx (by omega) (by ring)
    rw [heq]
  · by_cases h16 : bits = 16
    · subst h16
      norm_num at h
      norm_num
      unfold convert16BitToRGB565
      apply List.map_congr_left
      intro y hy
      rw [List.mem_range] at hy
      apply congrArg List.flatten
      apply List.map_congr_left
      intro x hx
      rw [List.mem_range] at hx
      have e0 : byteAt d1 (srcRow td H y * W * 2 + 2 * x) =
          byteAt d2 (srcRow td H y * W * 2 + 2 * x) :=
        byteAt_prefix_pixel d1 d2 H W 2 (srcRow td H y) x 0 _ h
          (srcRow_lt td H y hy) hx (by omega) (by ring)
      have e1 : byteAt d1 (srcRow td H y * W * 2 + 2 * x + 1) =
          byteAt d2 (srcRow td H y * W * 2 + 2 * x + 1) :=
        byteAt_prefix_pixel d1 d2 H W 2 (srcRow td H y) x 1 _ h
          (srcRow_lt td H y hy) hx (by omega) (by ring)
      rw [e0, e1]
    · by_cases h24 : bits = 24
      · subst h24
        norm_num at h
        norm_num
        unfold convert24BitBGRToRGB
        apply List.map_congr_left
        intro y hy
        rw [List.mem_range] at hy
        apply congrArg List.flatten
        apply List.map_congr_left
        intro x hx
        rw [List.mem_range] at hx
        have e2 : byteAt d1 (srcRow td H y * W * 3 + x * 3 + 2) =
            byteAt d2 (srcRow td H y * W * 3 + x * 3 + 2) :=
          byteAt_prefix_pixel d1 d2 H W 3 (srcRow td H y) x 2 _ h
            (srcRow_lt td H y hy) hx (by omega) (by ring)
        have e1 : byteAt d1 (srcRow td H y * W * 3 + x * 3 + 1) =
            byteAt d2 (srcRow td H y * W * 3 + x * 3 + 1) :=
          byteAt_prefix_pixel d1 d2 H W 3 (srcRow td H y) x 1 _ h
            (srcRow_lt td H y hy) hx (by omega) (by ring)
        have e0 : byteAt d1 (srcRow td H y * W * 3 + x * 3) =
            byteAt d2 (srcRow td H y * W * 3 + x * 3) :=
          byteAt_prefix_pixel d1 d2 H W 3 (srcRow td H y) x 0 _ h
            (srcRow_lt td H y hy) hx (by omega) (by ring)
        rw [e2, e1, e0]
      · by_cases h32 : bits = 32
        · subst h32
          norm_num at h
          norm_num
          unfold convert32BitBGRAToRGBA
          apply List.map_congr_left
          intro y hy
          rw [List.mem_range] at hy
          apply congrArg List.flatten
          apply List.map_congr_left
          intro x hx
          rw [List.mem_range] at hx
          have e2 : byteAt d1 (srcRow td H y * W * 4 + x * 4 + 2) =
              byteAt d2 (srcRow td H y * W * 4 + x * 4 + 2) :=
            byteAt_prefix_pixel d1 d2 H W 4 (srcRow td H y) x 2 _ h
              (srcRow_lt td H y hy) hx (by omega) (by ring)
          have e1 : byteAt d1 (srcRow td H y * W * 4 + x * 4 + 1) =
              byteAt d2 (srcRow td H y * W * 4 + x * 4 + 1) :=
            byteAt_prefix_pixel d1 d2 H W 4 (srcRow td H y) x 1 _ h
              (srcRow_lt td H y hy) hx (by omega) (by ring)
          have e0 : byteAt d1 (srcRow td H y * W * 4 + x * 4) =
              byteAt d2 (srcRow td H y * W * 4 + x * 4) :=
            byteAt_prefix_pixel d1 d2 H W 4 (srcRow td H y) x 0 _ h
              (srcRow_lt td H y hy) hx (by omega) (by ring)
          have e3 : byteAt d1 (srcRow td H y * W * 4 + x * 4 + 3) =
              byteAt d2 (srcRow td H y * W * 4 + x * 4 + 3) :=
            byteAt_prefix_pixel d1 d2 H W 4 (srcRow td H y) x 3 _ h
              (srcRow_lt td H y hy) hx (by omega) (by ring)
          rw [e2, e1, e0, e3]
        · rw [if_neg h8, if_neg h16, if_neg h24, if_neg h32,
            if_neg h8, if_neg h16, if_neg h24, if_neg h32]

/-- C10 witness: payloads differing only after the 3-byte prefix of a 1x1
24-bit frame decode identically. -/
theorem c10_witness :
    convertAndCopyFrame 24 [] [1, 2, 3, 9, 9] 1 1 true =
      convertAndCopyFrame 24 [] [1, 2, 3, 7] 1 1 true :=
  c10_prefix_only 24 1 1 true [] [1, 2, 3, 9, 9] [1, 2, 3, 7] (by decide)

/-- Length of a flattened map of uniform-length rows over a range. -/
theorem flatten_map_range_length {α : Type} (W k : Nat) (g : Nat → List α)
    (hg : ∀ x, (g x).length = k) : (((List.range W).map g).flatten).length = W * k := by
  rw [List.length_flatten, List.map_map]
  rw [show (List.length ∘ g) = Function.const Nat k from funext fun x => hg x]
  rw [List.map_const]
  simp [List.sum_replicate, Nat.smul_one_eq_cast]

/-- Pixel extraction for the 8-bit indexed converter: component `c` of output
pixel `(x, y)` is component `c` of the palette lookup (or black fallback) for
the source byte at `srcRow td H y * W + x`. -/
theorem convert8_pixel (data : List Nat) (W H : Nat) (td : Bool) (pal : List RGBQuad)
    (x y c : Nat) (hx : x < W) (hy : y < H) (hc : c < 3) :
    ((convert8BitToRGB24 data W H td pal).getD y []).getD (x * 3 + c) 0 =
      (if byteAt data (srcRow td H y * W + x) < pal.length then
        [(pal.getD (byteAt data (srcRow td H y * W + x)) ⟨0, 0, 0, 0⟩).red,
         (pal.getD (byteAt data (srcRow td H y * W + x)) ⟨0, 0, 0, 0⟩).green,
         (pal.getD (byteAt data (srcRow td H y * W + x)) ⟨0, 0, 0, 0⟩).blue]
       else [0, 0, 0]).getD c 0 := by
  unfold convert8BitToRGB24
  rw [range_map_getD H y _ hy]
  rw [flatten_getD ((List.range W).map _) 3 x c ?hL ?hi hc]
  · rw [range_map_getD W x _ hx]
  case hL =>
    intro r hr
    rcases List.mem_map.mp hr with ⟨x', hx', rfl⟩
    dsimp only
    split <;> rfl
  case hi => simpa using hx

/-- C8: in Indexed8 decoding every source byte is used as a palette index;
a pixel whose index is below the palette length receives that entry's
(red, green, blue), any other pixel receives opaque black (0, 0, 0); the
fallback is not an error and the converter is total, producing an H-row
buffer of W*3-byte rows for every byte value and palette length. -/
theorem c8_palette_fallback (data : List Nat) (W H : Nat) (td : Bool)
    (pal : List RGBQuad) (x y : Nat) (hx : x < W) (hy : y < H) :
    (convert8BitToRGB24 data W H td pal).length = H ∧
    (∀ r ∈ convert8BitToRGB24 data W H td pal, r.length = W * 3) ∧
    (byteAt data (srcRow td H y * W + x) < pal.length →
      ((convert8BitToRGB24 data W H td pal).getD y []).getD (3 * x) 0 =
        (pal.getD (byteAt data (srcRow td H y * W + x)) ⟨0, 0, 0, 0⟩).red ∧
      ((convert8BitToRGB24 data W H td pal).getD y []).getD (3 * x + 1) 0 =
        (pal.getD (byteAt data (srcRow td H y * W + x)) ⟨0, 0, 0, 0⟩).green ∧
      ((convert8BitToRGB24 data W H td pal).getD y []).getD (3 * x + 2) 0 =
        (pal.getD (byteAt data (srcRow td H y * W + x)) ⟨0, 0, 0, 0⟩).blue) ∧
    (pal.length ≤ byteAt data (srcRow td H y * W + x) →
      ((convert8BitToRGB24 data W H td pal).getD y []).getD (3 * x) 0 = 0 ∧
      ((convert8BitToRGB24 data W H td pal).getD y []).getD (3 * x + 1) 0 = 0 ∧
      ((convert8BitToRGB24 data W H td pal).getD y []).getD (3 * x + 2) 0 = 0) := by
  have p0 := convert8_pixel data W H td pal x y 0 hx hy (by omega)
  have p1 := convert8_pixel data W H td pal x y 1 hx hy (by omega)
  have p2 := convert8_pixel data W H td pal x y 2 hx hy (by omega)
  rw [show x * 3 + 0 = 3 * x from by ring] at p0
  rw [show x * 3 + 1 = 3 * x + 1 from by ring] at p1
  rw [show x * 3 + 2 = 3 * x + 2 from by ring] at p2
  refine ⟨?_, ?_, ?_, ?_⟩
  · unfold convert8BitToRGB24
    simp
  · intro r hr
    unfold convert8BitToRGB24 at hr
    rcases List.mem_map.mp hr with ⟨y', hy', rfl⟩
    exact flatten_map_range_length W 3 _ fun x' => by dsimp only; split <;> rfl
  · intro hlt
    rw [if_pos hlt] at p0 p1 p2
    exact ⟨p0, p1, p2⟩
  · intro hge
    rw [if_neg (by omega)] at p0 p1 p2
    exact ⟨p0, p1, p2⟩

/-- C8 witness: byte 5 against the empty palette falls back to black at a
concrete pixel. -/
theorem c8_witness :
    ((convert8BitToRGB24 [5] 1 1 true []).getD 0 []).getD 0 0 = 0 := by
  have h := c8_palette_fallback [5] 1 1 true [] 0 0 (by decide) (by decide)
  have h4 := (h.2.2.2 (by decide)).1
  simpa using h4

/-- C1 (amended): for every well-formed uncompressed AVI input the indexer
records exactly one entry per 00db/00dc-tagged chunk physically present in
the movie data, but the frame count used as the playback bound is the main
header's declared totalFrames, taken on trust and never cross-checked against
the indexed count. -/
theorem c1_playback_bound_vs_index (micro total w h : Nat) (cs : List MChunk)
    (hmicro : micro < 4294967296) (htotal : total < 4294967296)
    (hw : w < 4294967296) (hh : h < 4294967296)
    (hwf : ∀ c ∈ cs, WFChunk c)
    (hL : 4 + (serializeChunks cs).length < 4294967296)
    (hvid : 0 < countVideo cs) :
    loadedCounts (mkAVI micro total w h cs) = some (total, countVideo cs) := by
  unfold loadedCounts
  rw [loadAVI_mkAVI micro total w h cs hmicro htotal hw hh hwf hL hvid]
  simp [playFrames, videoOffsets_length]

/-- C1 witness: a file declaring 5 frames but holding one video chunk. -/
theorem c1_witness :
    loadedCounts (mkAVI 40000 5 4 4 [⟨tag00db, [1, 2, 3, 4]⟩]) = some (5, 1) := by
  have h := c1_playback_bound_vs_index 40000 5 4 4 [⟨tag00db, [1, 2, 3, 4]⟩] (by decide)
    (by decide) (by decide) (by decide) (by decide) (by decide) (by decide)
  exact h.trans (by decide)

/-- C1 counterexample: `exampleF1` declares 5 frames in its main header while
its movie data holds a single 00db chunk; the loaded playback bound is 5,
the indexed frame count is 1, and the two differ, refuting the claimed
equality of the playback bound with the physical chunk count. -/
theorem c1_counterexample :
    loadedCounts exampleF1 = some (5, 1) ∧ (5 : Nat) ≠ 1 := by
  constructor
  · decide
  · decide

/-- C9: for every loaded container built from a well-formed input, the fps is
the floor of 1000000 divided by the declared microseconds-per-frame when that
is positive, and 30 when it is zero. -/
theorem c9_fps_formula (micro total w h : Nat) (cs : List MChunk)
    (hmicro : micro < 4294967296) (htotal : total < 4294967296)
    (hw : w < 4294967296) (hh : h < 4294967296)
    (hwf : ∀ c ∈ cs, WFChunk c)
    (hL : 4 + (serializeChunks cs).length < 4294967296)
    (hvid : 0 < countVideo cs) :
    fpsOf (mkAVI micro total w h cs) =
      some (if 0 < micro then 1000000 / micro else 30) := by
  unfold fpsOf
  rw [loadAVI_mkAVI micro total w h cs hmicro htotal hw hh hwf hL hvid]
  rfl

/-- C9 witness: 40000 microseconds per frame gives 25 fps. -/
theorem c9_witness : fpsOf (mkAVI 40000 5 4 4 [⟨tag00dc, [1, 2]⟩]) = some 25 := by
  have h := c9_fps_formula 40000 5 4 4 [⟨tag00dc, [1, 2]⟩] (by decide) (by decide)
    (by decide) (by decide) (by decide) (by decide) (by decide)
  exact h.trans (by decide)

/-- C3 (amended): when the movie data ends in a chunk header declaring a
length that extends past end-of-file, load does not fail: provided the header
list was found and at least one video chunk was indexed before the truncation
point, it succeeds and silently returns only those frames; no TruncatedStream
error exists in the player. -/
theorem c3_truncated_load_succeeds (micro total w h k : Nat) (cs : List MChunk)
    (tailTag : List Nat)
    (hmicro : micro < 4294967296) (htotal : total < 4294967296)
    (hw : w < 4294967296) (hh : h < 4294967296)
    (hwf : ∀ c ∈ cs, WFChunk c)
    (htt : tailTag.length = 4)
    (hnv : ¬(tailTag = tag00dc ∨ tailTag = tag00db))
    (_hkpos : 0 < k) (hk : k < 4294967296)
    (hL : 4 + (serializeChunks cs).length + 8 + paddedSize k < 4294967296)
    (hvid : 0 < countVideo cs) :
    frameCountOf (mkAVITrunc micro total w h cs tailTag k) = some (countVideo cs) := by
  unfold frameCountOf
  rw [loadAVI_mkAVITrunc micro total w h k cs tailTag hmicro htotal hw hh hwf htt hnv hk
    hL hvid]
  simp [videoOffsets_length]

/-- C3 witness: a concrete truncated file still loads with one frame. -/
theorem c3_witness :
    frameCountOf (mkAVITrunc 40000 5 4 4 [⟨tag00db, [1, 2, 3, 4]⟩] tag00wb 100) =
      some 1 := by
  have h := c3_truncated_load_succeeds 40000 5 4 4 100 [⟨tag00db, [1, 2, 3, 4]⟩] tag00wb
    (by decide) (by decide) (by decide) (by decide) (by decide) (by decide) (by decide)
    (by decide) (by decide) (by decide) (by decide)
  exact h.trans (by decide)

/-- C3 counterexample: in `exampleF3` the final chunk header (at offset 236)
declares 100 payload bytes while the file ends at 244, so the declared length
extends past end-of-file; yet load succeeds and silently returns a frame
index with the single chunk found before the truncation point, instead of
failing with a TruncatedStream error. -/
theorem c3_counterexample :
    u32at exampleF3 240 = 100 ∧ exampleF3.length = 244 ∧
    frameCountOf exampleF3 = some 1 := by
  refine ⟨by decide, by decide, by decide⟩

/-- C4 (amended): a second video stream's headers are not an error, but its
format chunk is not discarded either: every video stream's `strf` overwrites
the captured bitmap header, so the last video stream's format determines the
loaded metadata, regardless of the first stream's 40 format bytes. -/
theorem c4_last_stream_wins (micro total w h : Nat) (b1 : List Nat) (cs : List MChunk)
    (hb1 : b1.length = 40)
    (hmicro : micro < 4294967296) (htotal : total < 4294967296)
    (hw : w < 4294967296) (hh : h < 4294967296)
    (hwf : ∀ c ∈ cs, WFChunk c)
    (hL : 4 + (serializeChunks cs).length < 4294967296)
    (hvid : 0 < countVideo cs) :
    bppOf (mkAVI2 micro total w h b1 (bmpBytes 16 16 32 0) cs) = some 32 := by
  unfold bppOf
  rw [loadAVI_mkAVI2 micro total w h b1 cs hb1 hmicro htotal hw hh hwf hL hvid]
  rfl

/-- C4 witness: any first-stream format bytes are ignored in favor of the
second stream's 32-bit format. -/
theorem c4_witness :
    bppOf (mkAVI2 40000 5 4 4 (bmpBytes 16 16 24 0) (bmpBytes 16 16 32 0)
      [⟨tag00db, [1, 2, 3, 4]⟩]) = some 32 :=
  c4_last_stream_wins 40000 5 4 4 (bmpBytes 16 16 24 0) [⟨tag00db, [1, 2, 3, 4]⟩]
    (by decide) (by decide) (by decide) (by decide) (by decide) (by decide) (by decide)
    (by decide)

/-- C4 counterexample: `exampleF4` declares a first video stream with a
24-bit format chunk and a second with a 32-bit one; the loaded container
reports 32 bits per pixel, so the first stream's captured metadata did not
stay in effect. -/
theorem c4_counterexample :
    u16at (bmpBytes 16 16 24 0) 14 = 24 ∧ bppOf exampleF4 = some 32 ∧
    (32 : Nat) ≠ 24 := by
  refine ⟨by decide, by decide, by decide⟩

/-- C5 (amended): requesting a decode of an index at or beyond the indexed
frame count is a silent no-op: `renderFrame` returns without rendering and
without any error indication, the loaded container is untouched, and a
subsequent in-range decode still succeeds. -/
theorem c5_out_of_range_norender (c : Container) (d : List Nat) (i : Nat)
    (hi : c.frameOffsets.length ≤ i) :
    renderFrame c d i = RenderResult.noRender := by
  unfold renderFrame
  rw [if_pos (by omega : i ≥ c.frameOffsets.length)]

/-- C5 witness: an out-of-range render on a one-frame container is a no-op. -/
theorem c5_witness :
    renderFrame ⟨1, 1, 25, 5, 24, 3, false, [], [0], [3]⟩ [10, 20, 30] 7 =
      RenderResult.noRender :=
  c5_out_of_range_norender ⟨1, 1, 25, 5, 24, 3, false, [], [0], [3]⟩ [10, 20, 30] 7
    (by decide)

/-- C5 counterexample: on the loaded container of `exampleF1`, decoding
index 5 yields the non-error outcome `noRender` (the `RenderResult` type has
no error alternative at all, so no IndexOutOfRange error is reported), while
index 0 still renders. -/
theorem c5_counterexample :
    renderAt exampleF1 5 = some RenderResult.noRender ∧
    (renderAt exampleF1 0).map isRendered = some true := by
  constructor
  · decide
  · decide

/-- C2 (amended): the even-byte rounding of chunk skips exists only in the
movie-data indexing phase: there, after each chunk the position advances by
8 + size rounded up to even.  In the top-level walk, the header-list walk and
the stream-list walk, a skipped chunk advances the position by exactly
8 + declared size with no rounding, and no misalignment error of any kind is
raised. -/
theorem c2_padding_only_in_movi :
    (∀ (d : List Nat) (fuel bound p : Nat) (st : PSt) (hdr : List Nat),
      srd d ⟨p, false⟩ 8 = (some hdr, ⟨p + 8, false⟩) → p < bound →
      indexLoop d (fuel + 1) ⟨p, false⟩ bound st =
        indexLoop d fuel ⟨p + 8 + paddedSize (u32at hdr 4), false⟩ bound
          (if hdr.take 4 = tag00dc ∨ hdr.take 4 = tag00db then
            { st with frameOffsets := st.frameOffsets ++ [p + 8]
                      frameSizes := st.frameSizes ++ [u32at hdr 4] }
           else st)) ∧
    (∀ (d : List Nat) (fuel p : Nat) (found : Bool) (st : PSt) (hdr : List Nat),
      srd d ⟨p, false⟩ 8 = (some hdr, ⟨p + 8, false⟩) → hdr.take 4 ≠ tagLIST →
      chunkLoop d (fuel + 1) ⟨p, false⟩ found st =
        chunkLoop d fuel ⟨p + 8 + u32at hdr 4, false⟩ found st) ∧
    (∀ (d : List Nat) (fuel size bytesRead p : Nat) (st : PSt) (hdr : List Nat),
      srd d ⟨p, false⟩ 8 = (some hdr, ⟨p + 8, false⟩) → bytesRead < size →
      hdr.take 4 ≠ tagAvih → hdr.take 4 ≠ tagLIST →
      headerLoop d (fuel + 1) ⟨p, false⟩ size bytesRead st =
        headerLoop d fuel ⟨p + 8 + u32at hdr 4, false⟩ size
          (((bytesRead + 8) % 4294967296 + u32at hdr 4) % 4294967296) st) ∧
    (∀ (d : List Nat) (fuel size bytesRead p : Nat) (st : PSt) (hdr : List Nat),
      srd d ⟨p, false⟩ 8 = (some hdr, ⟨p + 8, false⟩) → bytesRead < size →
      hdr.take 4 ≠ tagStrh → hdr.take 4 ≠ tagStrf →
      streamLoop d (fuel + 1) ⟨p, false⟩ size bytesRead st =
        streamLoop d fuel ⟨p + 8 + u32at hdr 4, false⟩ size
          (((bytesRead + 8) % 4294967296 + u32at hdr 4) % 4294967296) st) := by
  refine ⟨?_, ?_, ?_, ?_⟩
  · intro d fuel bound p st hdr h8 hlt
    exact indexLoop_step d fuel bound p st hdr h8 hlt
  · intro d fuel p found st hdr h8 ht
    exact chunkLoop_step_skip d fuel p found st hdr h8 ht
  · intro d fuel size bytesRead p st hdr h8 hbr ht1 ht2
    exact headerLoop_step_skip d fuel size bytesRead p st hdr h8 hbr ht1 ht2
  · intro d fuel size bytesRead p st hdr h8 hbr ht1 ht2
    exact streamLoop_step_skip d fuel size bytesRead p st hdr h8 hbr ht1 ht2

/-- C2 witness: the four phase behaviors at a concrete odd-size chunk: the
indexer skips to position 10 (8 + size 1 rounded to 2), the three parsing
walks skip to position 9 (8 + size 1, unrounded). -/
theorem c2_witness :
    indexLoop (tagJUNK ++ u32le 1 ++ [0, 0]) 5 ⟨0, false⟩ 50 initialState =
      indexLoop (tagJUNK ++ u32le 1 ++ [0, 0]) 4 ⟨10, false⟩ 50 initialState ∧
    chunkLoop (tagJUNK ++ u32le 1 ++ [0, 0]) 5 ⟨0, false⟩ false initialState =
      chunkLoop (tagJUNK ++ u32le 1 ++ [0, 0]) 4 ⟨9, false⟩ false initialState ∧
    headerLoop (tagJUNK ++ u32le 1 ++ [0, 0]) 5 ⟨0, false⟩ 50 0 initialState =
      headerLoop (tagJUNK ++ u32le 1 ++ [0, 0]) 4 ⟨9, false⟩ 50 9 initialState ∧
    streamLoop (tagJUNK ++ u32le 1 ++ [0, 0]) 5 ⟨0, false⟩ 50 0 initialState =
      streamLoop (tagJUNK ++ u32le 1 ++ [0, 0]) 4 ⟨9, false⟩ 50 9 initialState := by
  refine ⟨?_, ?_, ?_, ?_⟩
  · have h := c2_padding_only_in_movi.1 (tagJUNK ++ u32le 1 ++ [0, 0]) 4 50 0
      initialState (tagJUNK ++ u32le 1) (by decide) (by decide)
    exact h.trans (by decide)
  · have h := c2_padding_only_in_movi.2.1 (tagJUNK ++ u32le 1 ++ [0, 0]) 4 0 false
      initialState (tagJUNK ++ u32le 1) (by decide) (by decide)
    exact h.trans (by decide)
  · have h := c2_padding_only_in_movi.2.2.1 (tagJUNK ++ u32le 1 ++ [0, 0]) 4 50 0 0
      initialState (tagJUNK ++ u32le 1) (by decide) (by decide) (by decide) (by decide)
    exact h.trans (by decide)
  · have h := c2_padding_only_in_movi.2.2.2 (tagJUNK ++ u32le 1 ++ [0, 0]) 4 50 0 0
      initialState (tagJUNK ++ u32le 1) (by decide) (by decide) (by decide) (by decide)
    exact h.trans (by decide)

/-- C2 counterexample: in `exampleF2` the top-level chunk at offset 212
declares the odd size 1; the walk continues at 221 = 212 + 8 + 1, not at the
claimed even-rounded 222 = 212 + 8 + paddedSize 1, and only the unrounded
continuation finds the movie list (the run resumed at 222 parses garbage and
ends with a different result, while the real load succeeds with one frame). -/
theorem c2_counterexample :
    u32at exampleF2 216 = 1 ∧
    chunkLoop exampleF2 33 ⟨212, false⟩ true initialState =
      chunkLoop exampleF2 32 ⟨221, false⟩ true initialState ∧
    (221 : Nat) ≠ 212 + 8 + paddedSize 1 ∧
    chunkLoop exampleF2 32 ⟨222, false⟩ true initialState ≠
      chunkLoop exampleF2 33 ⟨212, false⟩ true initialState ∧
    frameCountOf exampleF2 = some 1 := by
  refine ⟨by decide, by decide, by decide, by decide, by decide⟩

end AviPlayer


